import Mathlib

/-!
General Standards 16AIO driver (`src/kernel/16aio.c`): register map, bring-up, registry.

A shallow embedding of the driver.  Machine integers are natural numbers taken
modulo `2 ^ w`; a register field is the list of its bytes in address order; the
host byte order is a parameter (`be = true` for a big-endian host).  The kernel
services the driver calls (`cpu_to_le32`, `pci_map_single`, ...) are not part of
the repository: byte-order helpers follow their kernel definition, the other
services are recorded as events with results supplied by the caller.
-/

namespace Aio16

/-! ## Constants -/

/-- Value of `#define NUM_MAX_ADAPTERS 4`. -/
def NUM_MAX_ADAPTERS : Nat := 4

/-- Value of `#define DEVICE_MAJOR 29`. -/
def DEVICE_MAJOR : Nat := 29

/-! ## Byte order -/

/-- Kernel helper `swab16` (not part of the repository): exchange the two bytes of a 16-bit
word. -/
def swab16 (x : Nat) : Nat :=
  (x % 256) * 256 + (x / 256) % 256

/-- Kernel helper `swab32` (not part of the repository): reverse the four bytes of a 32-bit
word. -/
def swab32 (x : Nat) : Nat :=
  (x % 256) * 16777216 + (x / 256 % 256) * 65536 + (x / 65536 % 256) * 256 + (x / 16777216) % 256

/-- Kernel helper `cpu_to_le32` on a `u32` argument: identity on a little-endian host, byte
swap on a big-endian one. -/
def cpu_to_le32 (be : Bool) (x : Nat) : Nat :=
  if be then swab32 (x % 2 ^ 32) else x % 2 ^ 32

/-- Kernel helper `le32_to_cpu`: the same exchange in the other direction. -/
def le32_to_cpu (be : Bool) (x : Nat) : Nat :=
  if be then swab32 (x % 2 ^ 32) else x % 2 ^ 32

/-- Kernel helper `cpu_to_le16` on a `u16` argument. -/
def cpu_to_le16 (be : Bool) (x : Nat) : Nat :=
  if be then swab16 (x % 2 ^ 16) else x % 2 ^ 16

/-- Kernel helper `le16_to_cpu`; its parameter has type `__le16`, so a narrower argument is
widened to 16 bits first. -/
def le16_to_cpu (be : Bool) (x : Nat) : Nat :=
  if be then swab16 (x % 2 ^ 16) else x % 2 ^ 16

/-- The `w` low bytes of `v`, least significant first. -/
def le_bytes : Nat → Nat → List Nat
  | 0, _ => []
  | w + 1, v => v % 256 :: le_bytes w (v / 256)

/-- The number a byte sequence denotes when read least significant byte first. -/
def le_value : List Nat → Nat
  | [] => 0
  | b :: bs => b % 256 + 256 * le_value bs

/-- Bytes, in address order, that a host store of the `w`-byte word `h` leaves in memory. -/
def host_bytes (be : Bool) (w : Nat) (h : Nat) : List Nat :=
  if be then (le_bytes w h).reverse else le_bytes w h

/-- Word that a host load obtains from the bytes `bs` (address order). -/
def host_word (be : Bool) (bs : List Nat) : Nat :=
  if be then le_value bs.reverse else le_value bs

/-- Bytes left in a 32-bit field by `regs->r = cpu_to_le32(v)`. -/
def store_reg_32 (be : Bool) (v : Nat) : List Nat :=
  host_bytes be 4 (cpu_to_le32 be v)

/-- Bytes left in a 16-bit field by `regs->r = cpu_to_le16(v)`. -/
def store_reg_16 (be : Bool) (v : Nat) : List Nat :=
  host_bytes be 2 (cpu_to_le16 be v)

/-- Bytes left in an 8-bit field by a plain byte store `regs->r = v` (a byte has no byte order
and the kernel has no 8-bit conversion; the driver itself stores to no 8-bit field). -/
def store_reg_08 (be : Bool) (v : Nat) : List Nat :=
  host_bytes be 1 (v % 2 ^ 8)

/-- Value printed by `PRINT_REG_32`: `(unsigned int) le32_to_cpu(regs->r)`; also the decoding
used by every 32-bit register read of the driver. -/
def PRINT_REG_32 (be : Bool) (field : List Nat) : Nat :=
  le32_to_cpu be (host_word be field) % 2 ^ 32

/-- Value printed by `PRINT_REG_16`: `(unsigned int) le16_to_cpu(regs->r)`. -/
def PRINT_REG_16 (be : Bool) (field : List Nat) : Nat :=
  le16_to_cpu be (host_word be field) % 2 ^ 32

/-- Value printed by `PRINT_REG_08`: `(unsigned int) le16_to_cpu(regs->r)` with `regs->r` a
`u8`. -/
def PRINT_REG_08 (be : Bool) (field : List Nat) : Nat :=
  le16_to_cpu be (host_word be field) % 2 ^ 32

/-! ## Register layouts -/

/-- Fields of `gsc_cfg_regs_t`. -/
inductive gsc_field
  | board_ctrl | intr_ctrl | inp_data_buf | inp_buf_ctrl | rate_a_gen | rate_b_gen
  | out_data_buf | out_buf_ctrl | scan_sync_ctrl | io_port | fw_rev | autocal | reserved
  deriving DecidableEq, Repr

/-- Fields of `plx_cfg_regs_t`. -/
inductive plx_field
  | direct_slave_range | direct_slave_local_address | dma_arbitration
  | endian_desc | misc_control_1 | eeprom_write_protect_boundary | misc_control_2
  | slave_expansion_rom_address | slace_expansion_address | expansion_rom_descriptor
  | m2p_range | m2p_address | m2p_config | m2p_config_address | direct_space_address
  | unused | mailbox1 | p2l_doorbell | l2p_doorbell | int_ctrl | ctrl
  | pci_vendor | pci_device | pci_revision | rt_res | mailbox2
  | dma0mode | dma0pciaddr | dma0lcladdr | dma0bytecnt | dma0pnt
  | dma1mode | dma1pciaddr | dma1lcladdr | dma1bytecnt | dma1pnt
  | dmacmd | poop | dmaarb | dmathreshold
  deriving DecidableEq, Repr

/-- One member declaration of a packed structure: name, element width in bytes, number of
elements (1 for a scalar), and the offset written in the trailing comment, if any. -/
structure Member (α : Type) where
  name : α
  width : Nat
  count : Nat
  comment : Option Nat

/-- Declaration `gsc_cfg_regs_t`, member by member. -/
def gsc_cfg_regs_t : List (Member gsc_field) :=
  [ ⟨.board_ctrl, 4, 1, some 0x00⟩,
    ⟨.intr_ctrl, 4, 1, some 0x04⟩,
    ⟨.inp_data_buf, 4, 1, some 0x08⟩,
    ⟨.inp_buf_ctrl, 4, 1, some 0x0c⟩,
    ⟨.rate_a_gen, 4, 1, some 0x10⟩,
    ⟨.rate_b_gen, 4, 1, some 0x14⟩,
    ⟨.out_data_buf, 4, 1, some 0x18⟩,
    ⟨.out_buf_ctrl, 4, 1, some 0x1c⟩,
    ⟨.scan_sync_ctrl, 4, 1, some 0x20⟩,
    ⟨.io_port, 4, 1, some 0x24⟩,
    ⟨.fw_rev, 4, 1, some 0x28⟩,
    ⟨.autocal, 4, 1, some 0x2c⟩,
    ⟨.reserved, 4, 4, some 0x30⟩ ]

/-- Declaration `plx_cfg_regs_t`, member by member. -/
def plx_cfg_regs_t : List (Member plx_field) :=
  [ ⟨.direct_slave_range, 4, 1, some 0x00⟩,
    ⟨.direct_slave_local_address, 4, 1, some 0x04⟩,
    ⟨.dma_arbitration, 4, 1, some 0x08⟩,
    ⟨.endian_desc, 1, 1, some 0x0c⟩,
    ⟨.misc_control_1, 1, 1, none⟩,
    ⟨.eeprom_write_protect_boundary, 1, 1, none⟩,
    ⟨.misc_control_2, 1, 1, none⟩,
    ⟨.slave_expansion_rom_address, 4, 1, some 0x10⟩,
    ⟨.slace_expansion_address, 4, 1, some 0x14⟩,
    ⟨.expansion_rom_descriptor, 4, 1, some 0x18⟩,
    ⟨.m2p_range, 4, 1, some 0x1c⟩,
    ⟨.m2p_address, 4, 1, some 0x20⟩,
    ⟨.m2p_config, 4, 1, some 0x24⟩,
    ⟨.m2p_config_address, 4, 1, some 0x28⟩,
    ⟨.direct_space_address, 4, 1, some 0x2c⟩,
    ⟨.unused, 4, 4, some 0x30⟩,
    ⟨.mailbox1, 4, 8, some 0x40⟩,
    ⟨.p2l_doorbell, 4, 1, some 0x60⟩,
    ⟨.l2p_doorbell, 4, 1, some 0x64⟩,
    ⟨.int_ctrl, 4, 1, some 0x68⟩,
    ⟨.ctrl, 4, 1, some 0x6c⟩,
    ⟨.pci_vendor, 2, 1, some 0x70⟩,
    ⟨.pci_device, 2, 1, none⟩,
    ⟨.pci_revision, 1, 1, some 0x74⟩,
    ⟨.rt_res, 1, 3, none⟩,
    ⟨.mailbox2, 4, 2, some 0x78⟩,
    ⟨.dma0mode, 4, 1, some 0x80⟩,
    ⟨.dma0pciaddr, 4, 1, some 0x84⟩,
    ⟨.dma0lcladdr, 4, 1, some 0x88⟩,
    ⟨.dma0bytecnt, 4, 1, some 0x8c⟩,
    ⟨.dma0pnt, 4, 1, some 0x90⟩,
    ⟨.dma1mode, 4, 1, some 0x94⟩,
    ⟨.dma1pciaddr, 4, 1, some 0x98⟩,
    ⟨.dma1lcladdr, 4, 1, some 0x9c⟩,
    ⟨.dma1bytecnt, 4, 1, some 0xa0⟩,
    ⟨.dma1pnt, 4, 1, some 0xa4⟩,
    ⟨.dmacmd, 2, 1, some 0xa8⟩,
    ⟨.poop, 2, 1, some 0xaa⟩,
    ⟨.dmaarb, 4, 1, some 0xac⟩,
    ⟨.dmathreshold, 4, 1, some 0xb0⟩ ]

/-- Size in bytes of a packed structure: the member sizes added up, no padding. -/
def sizeof {α : Type} : List (Member α) → Nat
  | [] => 0
  | m :: ms => m.width * m.count + sizeof ms

/-- Offset of member `f` in a packed structure: the sizes of the members declared before it
added up; `none` when the structure has no such member. -/
def offsetof {α : Type} [DecidableEq α] : List (Member α) → α → Option Nat
  | [], _ => none
  | m :: ms, f =>
    if m.name = f then some 0
    else (offsetof ms f).map (fun o => m.width * m.count + o)

/-- Element width in bytes of member `f`; `none` when the structure has no such member. -/
def widthof {α : Type} [DecidableEq α] : List (Member α) → α → Option Nat
  | [], _ => none
  | m :: ms, f => if m.name = f then some m.width else widthof ms f

/-- Comparison of the trailing comments with the layout: starting at offset `off`, the members,
in order, whose commented offset differs from the offset computed by adding up the sizes of the
members before them. -/
def comment_mismatches {α : Type} : Nat → List (Member α) → List α
  | _, [] => []
  | off, m :: ms =>
    let rest := comment_mismatches (off + m.width * m.count) ms
    match m.comment with
    | some c => if c = off then rest else m.name :: rest
    | none => rest

/-! ## Hardware, events and driver state -/

/-- A register of one of the two mapped blocks. -/
inductive Reg
  | gsc (f : gsc_field)
  | plx (f : plx_field)
  deriving DecidableEq, Repr

/-- Width in bytes of the member a register access goes to. -/
def Reg.width : Reg → Nat
  | .gsc f => (widthof gsc_cfg_regs_t f).getD 0
  | .plx f => (widthof plx_cfg_regs_t f).getD 0

/-- Value of `offsetof(s, r)` for the block the register belongs to. -/
def Reg.offset : Reg → Nat
  | .gsc f => (offsetof gsc_cfg_regs_t f).getD 0
  | .plx f => (offsetof plx_cfg_regs_t f).getD 0

/-- A model of the card behind the two mappings.  `load s base r` answers a bus read of register
`r` of the block mapped at `base` with the number the (little-endian) register holds and the next
hardware state; `store s base r v` is a bus write of the number `v`. -/
structure Board (σ : Type) where
  load : σ → Nat → Reg → Nat × σ
  store : σ → Nat → Reg → Nat → σ

/-- Kernel services called by the driver, with the arguments that matter here. -/
inductive Call
  | proc_create | register_chrdev | class_create
  | pci_request_regions (dev : Nat)
  | pci_ioremap_bar (dev : Nat) (bar : Nat)
  | cond_resched
  | pci_enable_device (dev : Nat)
  | pci_set_master (dev : Nat)
  | pci_set_dma_mask (dev : Nat)
  | kmalloc (size : Nat)
  | memset (ptr : Nat) (c : Nat) (n : Nat)
  | pci_map_single (dev : Nat) (ptr : Nat) (size : Nat)
  | device_create (minor : Int) (index : Nat)
  | free_irq (irq : Nat)
  | device_destroy (minor : Int)
  | pci_release_regions (dev : Nat)
  | pci_disable_device (dev : Nat)
  | class_unregister | class_destroy | unregister_chrdev | remove_proc_entry
  deriving DecidableEq, Repr

/-- Lines the driver writes with `printk`. -/
inductive Msg
  | device_init (dev : Nat)
  | will_request_irq (count : Int) (irq : Int) (dev : Nat)
  | pci_request_regions_failed
  | pci_enable_device_failed
  | dma_not_supported
  | dma_works
  | dma_transfer_initiated
  | device_print_gsc_regs
  | device_print_plx_regs
  | reg (r : Reg) (offset : Nat) (value : Nat)
  | device_exit
  | destroying (adapter : Option Nat)
  | destroyed_all
  deriving DecidableEq, Repr

/-- What the driver does that is visible outside it, in program order. -/
inductive Event
  | load (base : Nat) (r : Reg) (v : Nat)
  | store (base : Nat) (r : Reg) (v : Nat)
  | call (c : Call)
  | printk (m : Msg)
  deriving DecidableEq, Repr

/-- The structure `device_adapter_info_t`.  Pointers are numbers, `0` is `NULL`; `gsc_regs` and
`plx_regs` hold the base of the mapping. -/
structure device_adapter_info_t where
  dev : Nat
  dev_minor : Int
  gsc_regs : Nat
  plx_regs : Nat
  irq : Int
  deriving DecidableEq, Repr

/-- An adapter entry with every byte zero (static initialisation, or after `memset(adapter, 0, ..)`). -/
def zero_adapter : device_adapter_info_t := ⟨0, 0, 0, 0, 0⟩

/-- What the driver reads of a `struct pci_dev`: its address (the identity `device_exit`
compares, never `NULL`) and `dev->irq`, an `unsigned int`. -/
structure pci_dev where
  addr : Nat
  irq : Nat
  deriving DecidableEq, Repr

/-- Results the kernel hands back during one `device_init` call.  `bar0` and `bar2` are what
`pci_ioremap_bar(dev, 0)` and `pci_ioremap_bar(dev, 2)` return and `kmalloc` what `kmalloc`
returns: pointers, `0` (`NULL`) when the call fails. -/
structure Platform where
  proc_create : Nat
  class_create : Nat
  pci_request_regions : Int
  bar0 : Nat
  bar2 : Nat
  pci_enable_device : Int
  pci_set_dma_mask : Int
  kmalloc : Nat
  pci_map_single : Nat
  deriving DecidableEq, Repr

/-- The driver's globals, the card, and the record of events.  `adapters` is indexed by a
natural number: the C array `adapters[NUM_MAX_ADAPTERS]` is the indices below
`NUM_MAX_ADAPTERS`, and an access at a larger index is an access past the end of the array.
Such an access has no defined behaviour in C (what lies behind the array depends on the build);
the table keeps it in a cell of its own so that the store stays visible, which is one of the
possible outcomes, and statements about what the code guarantees stay below
`NUM_MAX_ADAPTERS`.  `adapter_count` is an `unsigned int`. -/
structure World (σ : Type) where
  proc_file : Nat
  class_ptr : Nat
  adapter_count : Nat
  adapters : Nat → device_adapter_info_t
  dma_vaddr : Nat
  dma_paddr : Nat
  board : σ
  log : List Event

/-- Conversion of an `unsigned int` to `int`. -/
def int_of_u32 (x : Nat) : Int :=
  if x % 2 ^ 32 < 2 ^ 31 then (x % 2 ^ 32 : Nat) else ((x % 2 ^ 32 : Nat) : Int) - 2 ^ 32

/-- Conversion of an `int` to `unsigned int`. -/
def u32_of_int (i : Int) : Nat :=
  (i % 2 ^ 32).toNat

/-- Append one event to the record. -/
def emit {σ : Type} (e : Event) (w : World σ) : World σ :=
  { w with log := w.log ++ [e] }

/-- Volatile load of a register: one bus read; yields the bytes of the field in address
order. -/
def mmio_load {σ : Type} (hw : Board σ) (base : Nat) (r : Reg) (w : World σ) :
    List Nat × World σ :=
  let res := hw.load w.board base r
  let v := res.1 % 256 ^ r.width
  (le_bytes r.width v, { w with board := res.2, log := w.log ++ [Event.load base r v] })

/-- Volatile store of the bytes `bs` (address order) to a register: one bus write. -/
def mmio_store {σ : Type} (hw : Board σ) (base : Nat) (r : Reg) (bs : List Nat) (w : World σ) :
    World σ :=
  let v := le_value bs
  { w with board := hw.store w.board base r v, log := w.log ++ [Event.store base r v] }

/-- Assignment `adapters[i].field = ...`. -/
def set_adapter {σ : Type} (i : Nat) (f : device_adapter_info_t → device_adapter_info_t)
    (w : World σ) : World σ :=
  { w with adapters := fun j => if j = i then f (w.adapters i) else w.adapters j }

/-- The three dump formats. -/
inductive Fmt
  | r32 | r16 | r08
  deriving DecidableEq, Repr

/-- One `PRINT_REG_32/16/08(s, r)` line: read the field, print name, offset and decoded value. -/
def print_reg {σ : Type} (hw : Board σ) (be : Bool) (k : Fmt) (base : Nat) (r : Reg)
    (w : World σ) : World σ :=
  let x := mmio_load hw base r w
  let v := match k with
    | .r32 => PRINT_REG_32 be x.1
    | .r16 => PRINT_REG_16 be x.1
    | .r08 => PRINT_REG_08 be x.1
  emit (.printk (.reg r r.offset v)) x.2

/-- The `PRINT_REG_32` lines of `device_print_gsc_regs`, in order. -/
def gsc_dump : List (Fmt × gsc_field) :=
  [ (.r32, .board_ctrl), (.r32, .intr_ctrl), (.r32, .inp_data_buf), (.r32, .inp_buf_ctrl),
    (.r32, .rate_a_gen), (.r32, .rate_b_gen), (.r32, .out_data_buf), (.r32, .out_buf_ctrl),
    (.r32, .scan_sync_ctrl), (.r32, .io_port), (.r32, .fw_rev), (.r32, .autocal) ]

/-- The `PRINT_REG_*` lines of `device_print_plx_regs`, in order. -/
def plx_dump : List (Fmt × plx_field) :=
  [ (.r32, .direct_slave_range), (.r32, .direct_slave_local_address), (.r32, .dma_arbitration),
    (.r08, .endian_desc), (.r08, .misc_control_1), (.r08, .eeprom_write_protect_boundary),
    (.r08, .misc_control_2), (.r32, .slave_expansion_rom_address),
    (.r32, .slace_expansion_address), (.r32, .expansion_rom_descriptor), (.r32, .m2p_range),
    (.r32, .m2p_address), (.r32, .m2p_config), (.r32, .m2p_config_address),
    (.r32, .direct_space_address), (.r32, .p2l_doorbell), (.r32, .l2p_doorbell),
    (.r32, .int_ctrl), (.r16, .pci_vendor), (.r16, .pci_device), (.r08, .pci_revision),
    (.r32, .dma0mode), (.r32, .dma0pciaddr), (.r32, .dma0lcladdr), (.r32, .dma0bytecnt),
    (.r32, .dma0pnt), (.r32, .dma1mode), (.r32, .dma1pciaddr), (.r32, .dma1lcladdr),
    (.r32, .dma1bytecnt), (.r32, .dma1pnt), (.r16, .dmacmd), (.r16, .poop), (.r32, .dmaarb),
    (.r32, .dmathreshold) ]

/-- The lines of a dump, one after another, over the block mapped at `base`. -/
def print_regs {σ : Type} (hw : Board σ) (be : Bool) (base : Nat) :
    List (Fmt × Reg) → World σ → World σ
  | [], w => w
  | p :: ps, w => print_regs hw be base ps (print_reg hw be p.1 base p.2 w)

/-- The function `device_print_gsc_regs`; `adapter` is the index of the entry pointed to. -/
def device_print_gsc_regs {σ : Type} (hw : Board σ) (be : Bool) (adapter : Nat)
    (w : World σ) : World σ :=
  let regs := (w.adapters adapter).gsc_regs
  print_regs hw be regs (gsc_dump.map (fun p => (p.1, Reg.gsc p.2)))
    (emit (.printk .device_print_gsc_regs) w)

/-- The function `device_print_plx_regs`. -/
def device_print_plx_regs {σ : Type} (hw : Board σ) (be : Bool) (adapter : Nat)
    (w : World σ) : World σ :=
  let regs := (w.adapters adapter).plx_regs
  print_regs hw be regs (plx_dump.map (fun p => (p.1, Reg.plx p.2)))
    (emit (.printk .device_print_plx_regs) w)

/-- The `do ... while (val & 0x00008000)` loop of `device_reset_board`, with a bound on the
number of iterations; `none` when the bound is used up.  The assignment `val = 0x0` of the source
is overwritten by the load that follows it and is left out. -/
def reset_poll {σ : Type} (hw : Board σ) (be : Bool) (base : Nat) :
    Nat → World σ → Option (World σ)
  | 0, _ => none
  | fuel + 1, w =>
    let w1 := emit (.call .cond_resched) w
    let x := mmio_load hw base (.gsc .board_ctrl) w1
    let val := le32_to_cpu be (host_word be x.1)
    if val &&& 0x00008000 ≠ 0 then reset_poll hw be base fuel x.2 else some x.2

/-- The function `device_reset_board`: write the reset request, then poll. -/
def device_reset_board {σ : Type} (hw : Board σ) (be : Bool) (fuel : Nat) (adapter : Nat)
    (w : World σ) : Option (World σ) :=
  let w1 := mmio_store hw (w.adapters adapter).gsc_regs (.gsc .board_ctrl)
    (host_bytes be 4 (cpu_to_le32 be 0x00008000)) w
  reset_poll hw be (w1.adapters adapter).gsc_regs fuel w1

/-- The function `device_disable_plx_interrupts`; `~(1 << 11)` as a `u32` is
`2 ^ 32 - 1 - 2 ^ 11`. -/
def device_disable_plx_interrupts {σ : Type} (hw : Board σ) (be : Bool) (adapter : Nat)
    (w : World σ) : World σ :=
  let x := mmio_load hw (w.adapters adapter).plx_regs (.plx .int_ctrl) w
  let val := host_word be x.1
  let val := le32_to_cpu be val &&& (2 ^ 32 - 1 - 2 ^ 11)
  mmio_store hw (x.2.adapters adapter).plx_regs (.plx .int_ctrl)
    (host_bytes be 4 (cpu_to_le32 be val)) x.2

/-! ## `device_init` and `device_exit` -/

/-- Ways a call can stop instead of returning. -/
inductive Fault
  | null_deref
  deriving DecidableEq, Repr

/-- Lines 311-335 of `device_init`: the banner, creation of the shared `/proc` entry, character
device and class when no adapter is registered yet, and the filling of the entry
`adapters[adapter_count]`.  No test of `adapter_count` against `NUM_MAX_ADAPTERS` is made, and
none of the two mappings against `NULL`.  Both numbers of the second message are printed with
`%d`; `adapter->irq` is an `int` assigned from the `unsigned int` `dev->irq`. -/
def device_init_slot {σ : Type} (pf : Platform) (dev : pci_dev) (w : World σ) : World σ :=
  let w := emit (.printk (.device_init dev.addr)) w
  let w :=
    if w.adapter_count = 0 then
      let w := emit (.call .proc_create) w
      let w := { w with proc_file := pf.proc_create }
      let w := emit (.call .register_chrdev) w
      let w := emit (.call .class_create) w
      { w with class_ptr := pf.class_create }
    else w
  let w := emit (.printk
    (.will_request_irq (int_of_u32 w.adapter_count) (int_of_u32 dev.irq) dev.addr)) w
  let adapter := w.adapter_count
  let w := emit (.call (.pci_request_regions dev.addr)) w
  let w :=
    if pf.pci_request_regions ≠ 0 then emit (.printk .pci_request_regions_failed) w else w
  let w := set_adapter adapter (fun a => { a with dev := dev.addr }) w
  let w := set_adapter adapter
    (fun a => { a with dev_minor := int_of_u32 (w.adapter_count + 1) }) w
  let w := emit (.call (.pci_ioremap_bar dev.addr 0)) w
  let w := set_adapter adapter (fun a => { a with plx_regs := pf.bar0 }) w
  let w := emit (.call (.pci_ioremap_bar dev.addr 2)) w
  let w := set_adapter adapter (fun a => { a with gsc_regs := pf.bar2 }) w
  set_adapter adapter (fun a => { a with irq := int_of_u32 dev.irq }) w

/-- Lines 338-359 of `device_init`: interrupts off, device enable, the two registers preset by
the CPU, both dumps, bus mastering and the DMA mask. -/
def device_init_quiesce {σ : Type} (hw : Board σ) (be : Bool) (pf : Platform) (adapter : Nat)
    (w : World σ) : World σ :=
  let w := device_disable_plx_interrupts hw be adapter w
  let w := emit (.call (.pci_enable_device (w.adapters adapter).dev)) w
  let w := if pf.pci_enable_device ≠ 0 then emit (.printk .pci_enable_device_failed) w else w
  let w := mmio_store hw (w.adapters adapter).gsc_regs (.gsc .out_buf_ctrl)
    (host_bytes be 4 (cpu_to_le32 be 0xAA)) w
  let w := mmio_store hw (w.adapters adapter).plx_regs (.plx .dma0mode)
    (host_bytes be 4 (cpu_to_le32 be 0x01)) w
  let w := device_print_gsc_regs hw be adapter w
  let w := device_print_plx_regs hw be adapter w
  let w := emit (.call (.pci_set_master (w.adapters adapter).dev)) w
  let w := emit (.call (.pci_set_dma_mask (w.adapters adapter).dev)) w
  if pf.pci_set_dma_mask ≠ 0 then emit (.printk .dma_not_supported) w
  else emit (.printk .dma_works) w

/-- Lines 362-380 of `device_init`: the transfer buffer, its bus address, and the register
program of DMA channel 0 up to the start command.  The result of `kmalloc` is passed to `memset`
without a test, so a `NULL` buffer is a null dereference at line 364.  `dma_paddr` has type
`dma_addr_t`; `cpu_to_le32` keeps its low 32 bits. -/
def device_init_dma {σ : Type} (hw : Board σ) (be : Bool) (pf : Platform) (adapter : Nat)
    (w : World σ) : Except Fault (World σ) :=
  let w := emit (.call (.kmalloc 32)) w
  let w := { w with dma_vaddr := pf.kmalloc }
  if w.dma_vaddr = 0 then .error .null_deref
  else
    let w := emit (.call (.memset w.dma_vaddr 0x22 4)) w
    let w := emit (.call (.pci_map_single (w.adapters adapter).dev w.dma_vaddr 4)) w
    let w := { w with dma_paddr := pf.pci_map_single }
    let w := mmio_store hw (w.adapters adapter).plx_regs (.plx .dmacmd)
      (host_bytes be 2 (cpu_to_le16 be 0x08)) w
    let w := mmio_store hw (w.adapters adapter).plx_regs (.plx .dmacmd)
      (host_bytes be 2 (cpu_to_le16 be 0x00)) w
    let w := mmio_store hw (w.adapters adapter).plx_regs (.plx .dma0mode)
      (host_bytes be 4 (cpu_to_le32 be 0x00020D43)) w
    let w := mmio_store hw (w.adapters adapter).plx_regs (.plx .dma0pciaddr)
      (host_bytes be 4 (cpu_to_le32 be w.dma_paddr)) w
    let w := mmio_store hw (w.adapters adapter).plx_regs (.plx .dma0lcladdr)
      (host_bytes be 4 (cpu_to_le32 be 0x1C)) w
    let w := mmio_store hw (w.adapters adapter).plx_regs (.plx .dma0bytecnt)
      (host_bytes be 4 (cpu_to_le32 be 0x4)) w
    let w := mmio_store hw (w.adapters adapter).plx_regs (.plx .dma0pnt)
      (host_bytes be 4 (cpu_to_le32 be 0x0)) w
    let w := mmio_store hw (w.adapters adapter).plx_regs (.plx .dmacmd)
      (host_bytes be 2 (cpu_to_le16 be 0x1)) w
    .ok (mmio_store hw (w.adapters adapter).plx_regs (.plx .dmacmd)
      (host_bytes be 2 (cpu_to_le16 be 0x3)) w)

/-- Lines 382-396 of `device_init`: the message, the second dump of the board registers, the
device node and `adapter_count++`.  The value read back from `out_buf_ctrl` is printed by the
dump and used nowhere else. -/
def device_init_finish {σ : Type} (hw : Board σ) (be : Bool) (adapter : Nat)
    (w : World σ) : World σ :=
  let w := emit (.printk .dma_transfer_initiated) w
  let w := device_print_gsc_regs hw be adapter w
  let w := emit (.call (.device_create (w.adapters adapter).dev_minor w.adapter_count)) w
  { w with adapter_count := (w.adapter_count + 1) % 2 ^ 32 }

/-- The function `device_init` (the probe callback).  `none` when the reset poll uses up `fuel`
iterations; otherwise either the return value with the state it leaves, or a fault.  `adapter`
is `&adapters[adapter_count]`.  The pointers returned by `pci_ioremap_bar` are used without a
test: a `NULL` board mapping is dereferenced by the first store of `device_reset_board`
(line 284), a `NULL` bridge mapping by the load in `device_disable_plx_interrupts` (line 298). -/
def device_init {σ : Type} (hw : Board σ) (be : Bool) (fuel : Nat) (pf : Platform)
    (dev : pci_dev) (w : World σ) : Option (Except Fault (Int × World σ)) :=
  let adapter := w.adapter_count
  let w := device_init_slot pf dev w
  if (w.adapters adapter).gsc_regs = 0 then some (.error .null_deref)
  else
    match device_reset_board hw be fuel adapter w with
    | none => none
    | some w =>
      if (w.adapters adapter).plx_regs = 0 then some (.error .null_deref)
      else
        let w := device_init_quiesce hw be pf adapter w
        match device_init_dma hw be pf adapter w with
        | .error f => some (.error f)
        | .ok w => some (.ok (0, device_init_finish hw be adapter w))

/-- The search loop of `device_exit`: the first index below `adapter_count` whose entry holds
`dev`, or `none` when the loop ends with `adapter` still `NULL`. -/
def find_adapter {σ : Type} (w : World σ) (dev : Nat) : Option Nat :=
  (List.range w.adapter_count).find? (fun i => decide ((w.adapters i).dev = dev))

/-- The function `device_exit` (the remove callback).  After the search the source passes
`adapter` to `device_disable_plx_interrupts` without a test; that function starts by reading
`adapter->plx_regs->int_ctrl`, so a `NULL` adapter, or an entry whose bridge mapping is `NULL`,
is a null dereference.  `free_irq` takes an `unsigned int`. -/
def device_exit {σ : Type} (hw : Board σ) (be : Bool) (dev : Nat) (w : World σ) :
    Except Fault (World σ) :=
  let w := emit (.printk .device_exit) w
  let adapter := find_adapter w dev
  let w := emit (.printk (.destroying adapter)) w
  match adapter with
  | none => .error .null_deref
  | some a =>
    if (w.adapters a).plx_regs = 0 then .error .null_deref
    else
      let w := device_disable_plx_interrupts hw be a w
      let w := emit (.call (.free_irq (u32_of_int (w.adapters a).irq))) w
      let w := emit (.call (.device_destroy (w.adapters a).dev_minor)) w
      let w := emit (.call (.pci_release_regions (w.adapters a).dev)) w
      let w := emit (.call (.pci_disable_device (w.adapters a).dev)) w
      let w := set_adapter a (fun _ => zero_adapter) w
      let w := { w with adapter_count := (w.adapter_count + 2 ^ 32 - 1) % 2 ^ 32 }
      if w.adapter_count = 0 then
        let w := emit (.printk .destroyed_all) w
        let w := emit (.call .class_unregister) w
        let w := emit (.call .class_destroy) w
        let w := emit (.call .unregister_chrdev) w
        .ok (emit (.call .remove_proc_entry) w)
      else .ok w

/-! ## Board models and sample states -/

/-- A board whose registers behave as plain storage: a load returns the last value stored. -/
def ram : Board (Nat → Reg → Nat) where
  load := fun s base r => (s base r, s)
  store := fun s base r v => fun b q => if b = base ∧ q = r then v else s b q

/-- A board that clears its reset-busy bit at once and whose DMA engine delivers the word `v`:
the state is the content of `out_buf_ctrl`; a store to `out_buf_ctrl` sets it, a store to
`dmacmd` with the start bit (bit 1) set replaces it by `v`; every other register reads 0. -/
def dma_board (v : Nat) : Board Nat where
  load := fun s _ r => (if r = Reg.gsc .out_buf_ctrl then s else 0, s)
  store := fun s _ r x =>
    if r = Reg.gsc .out_buf_ctrl then x
    else if r = Reg.plx .dmacmd ∧ x / 2 % 2 = 1 then v
    else s

/-- The state after module load: static data all zero. -/
def boot {σ : Type} (s : σ) : World σ :=
  { proc_file := 0, class_ptr := 0, adapter_count := 0, adapters := fun _ => zero_adapter,
    dma_vaddr := 0, dma_paddr := 0, board := s, log := [] }

/-- Kernel results for the probe of sample device number `n`: every call succeeds, the two
blocks are mapped at distinct addresses. -/
def sample_platform (n : Nat) : Platform :=
  { proc_create := 0x7000, class_create := 0x7100, pci_request_regions := 0,
    bar0 := 0x10000 * n + 0x1000, bar2 := 0x10000 * n + 0x2000, pci_enable_device := 0,
    pci_set_dma_mask := 0, kmalloc := 0x8000, pci_map_single := 0x8000 }

/-- Sample device number `n` (`n ≥ 1`): a `struct pci_dev` at address `0x100 + n`. -/
def sample_dev (n : Nat) : pci_dev :=
  { addr := 0x100 + n, irq := 16 + n }

/-- The call of `device_init` for sample device `n` on a little-endian host with a board that
completes its transfer. -/
def probe_call (n : Nat) (w : World Nat) : Option (Except Fault (Int × World Nat)) :=
  device_init (dma_board 0x22222222) false 1 (sample_platform n) (sample_dev n) w

/-- Probe sample device `n`: the return value and the state left when the call returns, `none`
when it does not. -/
def probe (n : Nat) (w : World Nat) : Option (Int × World Nat) :=
  match probe_call n w with
  | some (.ok r) => some r
  | _ => none

/-- Probe the sample devices of the list one after another, starting from the boot state. -/
def probe_all : List Nat → Option (World Nat)
  | [] => some (boot 0)
  | n :: ns => (probe_all ns).bind (fun w => (probe n w).map (fun r => r.2))

/-- Remove sample device `n`. -/
def remove (n : Nat) (w : World Nat) : Except Fault (World Nat) :=
  device_exit (dma_board 0x22222222) false (sample_dev n).addr w

/-- Count of occurrences of a kernel call in a record of events. -/
def count_call (c : Call) (log : List Event) : Nat :=
  (log.filter (fun e => decide (e = Event.call c))).length

/-- A board that stays busy for `n` polls after a reset request: the state is the number of
busy answers still to give; a store to `board_ctrl` with the reset bit set loads it with `n`; a
load of `board_ctrl` answers `0x8000` and counts down while it is positive, and 0 afterwards. -/
def countdown_board (n : Nat) : Board Nat where
  load := fun s _ r =>
    if r = Reg.gsc .board_ctrl then (if s = 0 then (0, 0) else (0x00008000, s - 1)) else (0, s)
  store := fun s _ r x =>
    if r = Reg.gsc .board_ctrl ∧ x / 0x8000 % 2 = 1 then n else s

/-- The state in which `device_reset_board` runs during the probe of sample device 1. -/
def slot_ready : World Nat :=
  device_init_slot (sample_platform 1) (sample_dev 1) (boot 0)

/-- A register file in which every register of every block holds `x`, with sample device 1
in entry 0. -/
def ram_world (x : Nat) : World (Nat → Reg → Nat) :=
  device_init_slot (sample_platform 1) (sample_dev 1) (boot (fun _ _ => x))

/-! ## Vocabulary of the statements -/

/-- Hardware state after `k` bus reads of `board_ctrl` through the mapping at `base`. -/
def after_polls {σ : Type} (hw : Board σ) (base : Nat) : Nat → σ → σ
  | 0, s => s
  | k + 1, s => after_polls hw base k (hw.load s base (.gsc .board_ctrl)).2

/-- The 32-bit number the board answers to bus read number `k + 1` of `board_ctrl`, counted
from hardware state `s`. -/
def poll_value {σ : Type} (hw : Board σ) (base : Nat) (k : Nat) (s : σ) : Nat :=
  (hw.load (after_polls hw base k s) base (.gsc .board_ctrl)).1 % 2 ^ 32

/-- The register loads in a record of events, in order: mapping base, register, number read. -/
def loads : List Event → List (Nat × Reg × Nat)
  | [] => []
  | .load b r v :: es => (b, r, v) :: loads es
  | _ :: es => loads es

/-- The register stores in a record of events, in order: mapping base, register, number
written. -/
def stores : List Event → List (Nat × Reg × Nat)
  | [] => []
  | .store b r v :: es => (b, r, v) :: stores es
  | _ :: es => stores es

/-- The events of `n` iterations of the reset poll from hardware state `s`. -/
def poll_events {σ : Type} (hw : Board σ) (base : Nat) : Nat → σ → List Event
  | 0, _ => []
  | n + 1, s =>
    Event.call .cond_resched ::
      Event.load base (.gsc .board_ctrl) ((hw.load s base (.gsc .board_ctrl)).1 % 2 ^ 32) ::
      poll_events hw base n (hw.load s base (.gsc .board_ctrl)).2

/-- Hardware state after the loads of a dump over the block mapped at `base`. -/
def dump_board {σ : Type} (hw : Board σ) (base : Nat) : List (Fmt × Reg) → σ → σ
  | [], s => s
  | p :: ps, s => dump_board hw base ps (hw.load s base p.2).2

/-- The events of a dump over the block mapped at `base`, from hardware state `s`: for each
line the load and the printed line. -/
def dump_events {σ : Type} (hw : Board σ) (be : Bool) (base : Nat) :
    List (Fmt × Reg) → σ → List Event
  | [], _ => []
  | p :: ps, s =>
    Event.load base p.2 ((hw.load s base p.2).1 % 256 ^ p.2.width) ::
      Event.printk (.reg p.2 p.2.offset
        (match p.1 with
          | .r32 => PRINT_REG_32 be (le_bytes p.2.width ((hw.load s base p.2).1 % 256 ^ p.2.width))
          | .r16 => PRINT_REG_16 be (le_bytes p.2.width ((hw.load s base p.2).1 % 256 ^ p.2.width))
          | .r08 =>
            PRINT_REG_08 be (le_bytes p.2.width ((hw.load s base p.2).1 % 256 ^ p.2.width)))) ::
      dump_events hw be base ps (hw.load s base p.2).2

/-- Events that only observe: a register load or a printed line (no store, no kernel call). -/
def passive : Event → Bool
  | .load _ _ _ => true
  | .printk _ => true
  | _ => false

/-- The record of events without the register loads and the printed register lines of the
dumps: the kernel calls, the stores and the other messages. -/
def outcome_events (log : List Event) : List Event :=
  log.filter (fun e =>
    match e with
    | .load _ _ _ => false
    | .printk (.reg _ _ _) => false
    | _ => true)

/-- The numbers loaded from the board's `out_buf_ctrl` in a record of events, in order. -/
def out_buf_ctrl_reads (log : List Event) : List Nat :=
  (loads log).filterMap (fun t => if t.2.1 = Reg.gsc .out_buf_ctrl then some t.2.2 else none)

/-- Probe of sample device 1 from the boot state, little-endian host, on a board whose DMA
engine delivers `v`: return value, adapter count, entry 0, the events other than loads and dump
lines, and the numbers read from `out_buf_ctrl`. -/
def probe_outcome (v : Nat) :
    Option (Int × Nat × device_adapter_info_t × List Event × List Nat) :=
  match device_init (dma_board v) false 1 (sample_platform 1) (sample_dev 1) (boot 0) with
  | some (.ok r) =>
    some (r.1, r.2.adapter_count, r.2.adapters 0, outcome_events r.2.log,
      out_buf_ctrl_reads r.2.log)
  | _ => none

/-- The events of dump lines of board registers over the mapping at `base`: for each register
and number, the load of that number and the printed line with the register, its offset and the
same number. -/
def gsc_lines (base : Nat) : List (gsc_field × Nat) → List Event
  | [] => []
  | p :: ps =>
    Event.load base (.gsc p.1) p.2 ::
      Event.printk (.reg (.gsc p.1) (Reg.gsc p.1).offset p.2) :: gsc_lines base ps

/-- A call of one of the two callbacks on a sample device. -/
inductive Step
  | probe (n : Nat)
  | remove (n : Nat)
  deriving DecidableEq, Repr

/-- What is left after a sequence of callbacks: out of poll iterations, a fault, or the adapter
count, the `dev` and `dev_minor` members of entries 0 to 4 (entry 4 lies past the end of the
array), and the number of `class_unregister` calls made so far. -/
inductive Observed
  | out_of_fuel
  | fault (f : Fault)
  | state (adapter_count : Nat) (entries : List (Nat × Int)) (teardowns : Nat)
  deriving DecidableEq, Repr

/-- Run callbacks one after another (no two overlap) from state `w`. -/
def run_steps : List Step → World Nat → Observed
  | [], w =>
    .state w.adapter_count
      ((List.range (NUM_MAX_ADAPTERS + 1)).map (fun i => ((w.adapters i).dev, (w.adapters i).dev_minor)))
      (count_call .class_unregister w.log)
  | .probe n :: ss, w =>
    match probe_call n w with
    | none => .out_of_fuel
    | some (.error f) => .fault f
    | some (.ok r) => run_steps ss r.2
  | .remove n :: ss, w =>
    match remove n w with
    | .error f => .fault f
    | .ok w1 => run_steps ss w1

/-! ## Byte order facts -/

theorem swab32_bytes (a b c d : Nat) (ha : a < 256) (hb : b < 256) (hc : c < 256)
    (hd : d < 256) :
    swab32 (a + 256 * b + 65536 * c + 16777216 * d) =
      d + 256 * c + 65536 * b + 16777216 * a := by
  unfold swab32
  omega

theorem swab16_bytes (a b : Nat) (ha : a < 256) (hb : b < 256) :
    swab16 (a + 256 * b) = b + 256 * a := by
  unfold swab16
  omega

theorem le_bytes_4_sum (a b c d : Nat) (ha : a < 256) (hb : b < 256) (hc : c < 256)
    (hd : d < 256) :
    le_bytes 4 (a + 256 * b + 65536 * c + 16777216 * d) = [a, b, c, d] := by
  simp only [le_bytes, List.cons.injEq, and_true]
  refine ⟨?_, ?_, ?_, ?_⟩ <;> omega

theorem le_bytes_2_sum (a b : Nat) (ha : a < 256) (hb : b < 256) :
    le_bytes 2 (a + 256 * b) = [a, b] := by
  simp only [le_bytes, List.cons.injEq, and_true]
  refine ⟨?_, ?_⟩ <;> omega

theorem le_value_4 (a b c d : Nat) (ha : a < 256) (hb : b < 256) (hc : c < 256)
    (hd : d < 256) :
    le_value [a, b, c, d] = a + 256 * b + 65536 * c + 16777216 * d := by
  simp only [le_value]
  omega

theorem le_value_2 (a b : Nat) (ha : a < 256) (hb : b < 256) :
    le_value [a, b] = a + 256 * b := by
  simp only [le_value]
  omega

theorem split_32 (v : Nat) (h : v < 2 ^ 32) : ∃ a b c d, a < 256 ∧ b < 256 ∧ c < 256 ∧
    d < 256 ∧ v = a + 256 * b + 65536 * c + 16777216 * d := by
  refine ⟨v % 256, v / 256 % 256, v / 65536 % 256, v / 16777216, ?_, ?_, ?_, ?_, ?_⟩ <;> omega

theorem split_16 (v : Nat) (h : v < 2 ^ 16) : ∃ a b, a < 256 ∧ b < 256 ∧ v = a + 256 * b := by
  refine ⟨v % 256, v / 256, ?_, ?_, ?_⟩ <;> omega

/-- The number a 32-bit register receives from `regs->r = cpu_to_le32(v)` is `v`, on either
host. -/
theorem store_value_32 (be : Bool) (v : Nat) :
    le_value (host_bytes be 4 (cpu_to_le32 be v)) = v % 2 ^ 32 := by
  obtain ⟨a, b, c, d, ha, hb, hc, hd, hv⟩ := split_32 (v % 2 ^ 32) (Nat.mod_lt _ (by norm_num))
  cases be
  · simp only [host_bytes, cpu_to_le32, Bool.false_eq_true, if_false]
    rw [hv, le_bytes_4_sum a b c d ha hb hc hd, le_value_4 a b c d ha hb hc hd]
  · simp only [host_bytes, cpu_to_le32, if_true]
    rw [hv, swab32_bytes a b c d ha hb hc hd, le_bytes_4_sum d c b a hd hc hb ha]
    simp only [List.reverse_cons, List.reverse_nil, List.nil_append, List.cons_append]
    rw [le_value_4 a b c d ha hb hc hd]

/-- The number a 16-bit register receives from `regs->r = cpu_to_le16(v)` is `v`, on either
host. -/
theorem store_value_16 (be : Bool) (v : Nat) :
    le_value (host_bytes be 2 (cpu_to_le16 be v)) = v % 2 ^ 16 := by
  obtain ⟨a, b, ha, hb, hv⟩ := split_16 (v % 2 ^ 16) (Nat.mod_lt _ (by norm_num))
  cases be
  · simp only [host_bytes, cpu_to_le16, Bool.false_eq_true, if_false]
    rw [hv, le_bytes_2_sum a b ha hb, le_value_2 a b ha hb]
  · simp only [host_bytes, cpu_to_le16, if_true]
    rw [hv, swab16_bytes a b ha hb, le_bytes_2_sum b a hb ha]
    simp only [List.reverse_cons, List.reverse_nil, List.nil_append, List.cons_append]
    rw [le_value_2 a b ha hb]

theorem le_bytes_mod_32 (v : Nat) : le_bytes 4 (v % 2 ^ 32) = le_bytes 4 v := by
  simp only [le_bytes, List.cons.injEq, and_true]
  refine ⟨?_, ?_, ?_, ?_⟩ <;> omega

/-- The word `le32_to_cpu(regs->r)` is the number the 32-bit register holds, on either host. -/
theorem load_value_32 (be : Bool) (v : Nat) :
    le32_to_cpu be (host_word be (le_bytes 4 v)) = v % 2 ^ 32 := by
  obtain ⟨a, b, c, d, ha, hb, hc, hd, hv⟩ := split_32 (v % 2 ^ 32) (Nat.mod_lt _ (by norm_num))
  rw [← le_bytes_mod_32 v, hv, le_bytes_4_sum a b c d ha hb hc hd]
  cases be
  · simp only [host_word, le32_to_cpu, Bool.false_eq_true, if_false]
    rw [le_value_4 a b c d ha hb hc hd]
    omega
  · simp only [host_word, le32_to_cpu, if_true, List.reverse_cons, List.reverse_nil,
      List.nil_append, List.cons_append]
    rw [le_value_4 d c b a hd hc hb ha]
    have h1 : (d + 256 * c + 65536 * b + 16777216 * a) % 2 ^ 32 =
        d + 256 * c + 65536 * b + 16777216 * a := by omega
    rw [h1, swab32_bytes d c b a hd hc hb ha]

/-- Round trip of a 32-bit register through the driver's conversions, either host. -/
theorem roundtrip_32 (be : Bool) (v : Nat) (h : v < 2 ^ 32) :
    PRINT_REG_32 be (store_reg_32 be v) = v := by
  obtain ⟨a, b, c, d, ha, hb, hc, hd, hv⟩ := split_32 v h
  have hm : (a + 256 * b + 65536 * c + 16777216 * d) % 2 ^ 32 =
      a + 256 * b + 65536 * c + 16777216 * d := by omega
  have hm2 : (d + 256 * c + 65536 * b + 16777216 * a) % 2 ^ 32 =
      d + 256 * c + 65536 * b + 16777216 * a := by omega
  subst hv
  cases be
  · simp only [PRINT_REG_32, store_reg_32, host_word, host_bytes, le32_to_cpu, cpu_to_le32,
      Bool.false_eq_true, if_false]
    rw [hm, le_bytes_4_sum a b c d ha hb hc hd, le_value_4 a b c d ha hb hc hd, hm, hm]
  · simp only [PRINT_REG_32, store_reg_32, host_word, host_bytes, le32_to_cpu, cpu_to_le32,
      if_true, List.reverse_reverse]
    rw [hm, swab32_bytes a b c d ha hb hc hd, le_bytes_4_sum d c b a hd hc hb ha,
      le_value_4 d c b a hd hc hb ha, hm2, swab32_bytes d c b a hd hc hb ha, hm]

/-- Round trip of a 16-bit register through the driver's conversions, either host. -/
theorem roundtrip_16 (be : Bool) (v : Nat) (h : v < 2 ^ 16) :
    PRINT_REG_16 be (store_reg_16 be v) = v := by
  obtain ⟨a, b, ha, hb, hv⟩ := split_16 v h
  have hm : (a + 256 * b) % 2 ^ 16 = a + 256 * b := by omega
  have hm2 : (b + 256 * a) % 2 ^ 16 = b + 256 * a := by omega
  have hm3 : (a + 256 * b) % 2 ^ 32 = a + 256 * b := by omega
  subst hv
  cases be
  · simp only [PRINT_REG_16, store_reg_16, host_word, host_bytes, le16_to_cpu, cpu_to_le16,
      Bool.false_eq_true, if_false]
    rw [hm, le_bytes_2_sum a b ha hb, le_value_2 a b ha hb, hm, hm3]
  · simp only [PRINT_REG_16, store_reg_16, host_word, host_bytes, le16_to_cpu, cpu_to_le16,
      if_true, List.reverse_reverse]
    rw [hm, swab16_bytes a b ha hb, le_bytes_2_sum b a hb ha,
      le_value_2 b a hb ha, hm2, swab16_bytes b a hb ha, hm3]

/-- Round trip of an 8-bit register on a little-endian host. -/
theorem roundtrip_08_little (v : Nat) (h : v < 2 ^ 8) :
    PRINT_REG_08 false (store_reg_08 false v) = v := by
  simp only [PRINT_REG_08, store_reg_08, host_word, host_bytes, le16_to_cpu, le_bytes, le_value,
    Bool.false_eq_true, if_false]
  omega

/-- What `PRINT_REG_08` decodes on a big-endian host: the byte moved to bits 8-15. -/
theorem print_reg_08_big (v : Nat) (h : v < 2 ^ 8) :
    PRINT_REG_08 true (store_reg_08 true v) = v * 256 := by
  have h1 : v % 2 ^ 8 = v := by omega
  have h2 : (v % 256 % 256 + 256 * 0) % 2 ^ 16 = v := by omega
  simp only [PRINT_REG_08, store_reg_08, host_word, host_bytes, le16_to_cpu, le_bytes, le_value,
    swab16, if_true, List.reverse_cons, List.reverse_nil, List.nil_append]
  rw [h1, h2]
  omega

/-! ## Claims on the register map -/

/-- C8: in both packed structures the offset of each documented field, computed by adding up
the sizes of the members declared before it, is the documented hardware offset; the board block
is 0x40 bytes long with `reserved` covering 0x30..0x3f; `dmacmd` is 16 bits wide; the last
member of the bridge block is `dmathreshold`; and no member carries a comment that differs from
its computed offset. -/
theorem C8_packed_offsets :
    (gsc_cfg_regs_t.map (fun m => (m.name, offsetof gsc_cfg_regs_t m.name)) =
      [ (.board_ctrl, some 0x00), (.intr_ctrl, some 0x04), (.inp_data_buf, some 0x08),
        (.inp_buf_ctrl, some 0x0c), (.rate_a_gen, some 0x10), (.rate_b_gen, some 0x14),
        (.out_data_buf, some 0x18), (.out_buf_ctrl, some 0x1c), (.scan_sync_ctrl, some 0x20),
        (.io_port, some 0x24), (.fw_rev, some 0x28), (.autocal, some 0x2c),
        (.reserved, some 0x30) ]) ∧
    sizeof gsc_cfg_regs_t = 0x40 ∧
    (gsc_cfg_regs_t.getLast?.map (fun m => (m.name, m.width * m.count))) = some (.reserved, 0x10) ∧
    offsetof plx_cfg_regs_t .int_ctrl = some 0x68 ∧
    offsetof plx_cfg_regs_t .dma0mode = some 0x80 ∧
    offsetof plx_cfg_regs_t .dma0pciaddr = some 0x84 ∧
    offsetof plx_cfg_regs_t .dma0lcladdr = some 0x88 ∧
    offsetof plx_cfg_regs_t .dma0bytecnt = some 0x8c ∧
    offsetof plx_cfg_regs_t .dma0pnt = some 0x90 ∧
    offsetof plx_cfg_regs_t .dmacmd = some 0xa8 ∧
    widthof plx_cfg_regs_t .dmacmd = some 2 ∧
    offsetof plx_cfg_regs_t .dmathreshold = some 0xb0 ∧
    (plx_cfg_regs_t.getLast?.map (fun m => m.name)) = some .dmathreshold ∧
    comment_mismatches 0 gsc_cfg_regs_t = [] ∧
    comment_mismatches 0 plx_cfg_regs_t = [] := by
  decide

/-- C9 (defect): on a big-endian host the 8-bit round trip does not return the value stored.
The byte 0x01 stored in an 8-bit field is decoded by `PRINT_REG_08` as 0x100, because the macro
applies the 16-bit conversion `le16_to_cpu` to a byte; on a little-endian host the same byte
decodes as 0x01. -/
theorem C9_print_reg_08_big_endian :
    PRINT_REG_08 true (store_reg_08 true 0x01) = 0x100 ∧
    PRINT_REG_08 false (store_reg_08 false 0x01) = 0x01 := by
  decide

/-! ## Bring-up -/

theorem loads_append (xs ys : List Event) : loads (xs ++ ys) = loads xs ++ loads ys := by
  induction xs with
  | nil => rfl
  | cons e es ih => cases e <;> simp [loads, ih]

theorem stores_append (xs ys : List Event) : stores (xs ++ ys) = stores xs ++ stores ys := by
  induction xs with
  | nil => rfl
  | cons e es ih => cases e <;> simp [stores, ih]

theorem width_board_ctrl : Reg.width (.gsc .board_ctrl) = 4 := by decide

theorem width_int_ctrl : Reg.width (.plx .int_ctrl) = 4 := by decide

theorem stores_poll_events {σ : Type} (hw : Board σ) (base : Nat) (n : Nat) (s : σ) :
    stores (poll_events hw base n s) = [] := by
  induction n generalizing s with
  | zero => rfl
  | succ n ih => simp [poll_events, stores, ih]

theorem loads_poll_events {σ : Type} (hw : Board σ) (base : Nat) (n : Nat) (s : σ) :
    loads (poll_events hw base n s) =
      (List.range n).map (fun k => (base, Reg.gsc .board_ctrl, poll_value hw base k s)) := by
  induction n generalizing s with
  | zero => rfl
  | succ n ih =>
    rw [List.range_succ_eq_map]
    simp [poll_events, loads, ih, poll_value, after_polls, Function.comp_def]

/-- The value tested by the loop of `device_reset_board` is the number the board answered. -/
theorem reset_poll_val {σ : Type} (hw : Board σ) (be : Bool) (base : Nat) (w : World σ) :
    le32_to_cpu be (host_word be (mmio_load hw base (.gsc .board_ctrl) w).1) =
      poll_value hw base 0 w.board := by
  simp only [mmio_load, width_board_ctrl, load_value_32, poll_value, after_polls]
  omega

/-- The poll loop on a board that answers busy `N` times and then clear: it ends after `N + 1`
iterations, whatever larger bound is given. -/
theorem reset_poll_spec {σ : Type} (hw : Board σ) (be : Bool) (base : Nat) (N : Nat) :
    ∀ (w : World σ) (fuel : Nat), N < fuel →
      (∀ k, k < N → poll_value hw base k w.board &&& 0x00008000 ≠ 0) →
      poll_value hw base N w.board &&& 0x00008000 = 0 →
      reset_poll hw be base fuel w =
        some { w with board := after_polls hw base (N + 1) w.board,
                      log := w.log ++ poll_events hw base (N + 1) w.board } := by
  induction N with
  | zero =>
    intro w fuel hf _ hclear
    obtain ⟨f, rfl⟩ : ∃ f, fuel = f + 1 := ⟨fuel - 1, by omega⟩
    have hv := reset_poll_val hw be base (emit (.call .cond_resched) w)
    simp only [emit] at hv
    simp only [reset_poll, emit, hv, hclear, ne_eq, not_true_eq_false, if_false]
    simp [mmio_load, width_board_ctrl, poll_events, after_polls]
  | succ n ih =>
    intro w fuel hf hbusy hclear
    obtain ⟨f, rfl⟩ : ∃ f, fuel = f + 1 := ⟨fuel - 1, by omega⟩
    have hv := reset_poll_val hw be base (emit (.call .cond_resched) w)
    simp only [emit] at hv
    have h0 := hbusy 0 (by omega)
    rw [reset_poll]
    simp only [emit, hv, h0, ne_eq, not_false_eq_true, if_true]
    rw [ih _ f (by omega)]
    · simp [mmio_load, width_board_ctrl, poll_events, after_polls]
    · intro k hk
      have := hbusy (k + 1) (by omega)
      simpa [mmio_load, poll_value, after_polls] using this
    · simpa [mmio_load, poll_value, after_polls] using hclear

/-- The state `device_reset_board` returns on a board that answers busy `N` times and then
clear. -/
theorem device_reset_board_run {σ : Type} (hw : Board σ) (be : Bool) (adapter : Nat)
    (w : World σ) (N : Nat)
    (hbusy : ∀ k, k < N →
      poll_value hw (w.adapters adapter).gsc_regs k
        (hw.store w.board (w.adapters adapter).gsc_regs (.gsc .board_ctrl) 0x00008000)
        &&& 0x00008000 ≠ 0)
    (hclear :
      poll_value hw (w.adapters adapter).gsc_regs N
        (hw.store w.board (w.adapters adapter).gsc_regs (.gsc .board_ctrl) 0x00008000)
        &&& 0x00008000 = 0)
    (fuel : Nat) (hfuel : N < fuel) :
    device_reset_board hw be fuel adapter w =
      some { w with
        board := after_polls hw (w.adapters adapter).gsc_regs (N + 1)
          (hw.store w.board (w.adapters adapter).gsc_regs (.gsc .board_ctrl) 0x00008000),
        log := w.log ++
          Event.store (w.adapters adapter).gsc_regs (.gsc .board_ctrl) 0x00008000 ::
          poll_events hw (w.adapters adapter).gsc_regs (N + 1)
            (hw.store w.board (w.adapters adapter).gsc_regs (.gsc .board_ctrl) 0x00008000) } := by
  have hst : le_value (host_bytes be 4 (cpu_to_le32 be 0x00008000)) = 0x00008000 := by
    rw [store_value_32]; norm_num
  unfold device_reset_board
  simp only [mmio_store, hst]
  rw [reset_poll_spec hw be _ N _ fuel hfuel hbusy hclear]
  simp only [List.append_assoc, List.singleton_append]

/-- C3: on every board whose `board_ctrl` answers with the reset-busy bit (0x8000) set to the
first `N` reads after the reset request and clear to read `N + 1`, `device_reset_board` returns
(for every iteration bound above `N`); what it does is one store of 0x8000 to `board_ctrl`
followed by events that contain no store and exactly `N + 1` loads, all of `board_ctrl`: the store
is the first register access and every read comes after it. -/
theorem C3_reset_board_polls {σ : Type} (hw : Board σ) (be : Bool) (adapter : Nat)
    (w : World σ) (N : Nat)
    (hbusy : ∀ k, k < N →
      poll_value hw (w.adapters adapter).gsc_regs k
        (hw.store w.board (w.adapters adapter).gsc_regs (.gsc .board_ctrl) 0x00008000)
        &&& 0x00008000 ≠ 0)
    (hclear :
      poll_value hw (w.adapters adapter).gsc_regs N
        (hw.store w.board (w.adapters adapter).gsc_regs (.gsc .board_ctrl) 0x00008000)
        &&& 0x00008000 = 0)
    (fuel : Nat) (hfuel : N < fuel) :
    ∃ w1 evs, device_reset_board hw be fuel adapter w = some w1 ∧
      w1.log = w.log ++
        Event.store (w.adapters adapter).gsc_regs (.gsc .board_ctrl) 0x00008000 :: evs ∧
      stores evs = [] ∧
      loads evs = (List.range (N + 1)).map (fun k =>
        ((w.adapters adapter).gsc_regs, Reg.gsc .board_ctrl,
          poll_value hw (w.adapters adapter).gsc_regs k
            (hw.store w.board (w.adapters adapter).gsc_regs (.gsc .board_ctrl) 0x00008000))) ∧
      (loads evs).length = N + 1 ∧
      w1.adapters = w.adapters ∧ w1.adapter_count = w.adapter_count := by
  refine ⟨_, poll_events hw (w.adapters adapter).gsc_regs (N + 1)
    (hw.store w.board (w.adapters adapter).gsc_regs (.gsc .board_ctrl) 0x00008000),
    device_reset_board_run hw be adapter w N hbusy hclear fuel hfuel, rfl,
    stores_poll_events _ _ _ _, loads_poll_events _ _ _ _, ?_, rfl, rfl⟩
  simp [loads_poll_events]

/-- C3 at a concrete board: busy for 2 polls, then clear; the bound 3 is enough. -/
theorem C3_reset_board_polls_witness :
    ∃ w1 evs, device_reset_board (countdown_board 2) false 3 0 slot_ready = some w1 ∧
      w1.log = slot_ready.log ++
        Event.store (slot_ready.adapters 0).gsc_regs (.gsc .board_ctrl) 0x00008000 :: evs ∧
      stores evs = [] ∧
      loads evs = (List.range (2 + 1)).map (fun k =>
        ((slot_ready.adapters 0).gsc_regs, Reg.gsc .board_ctrl,
          poll_value (countdown_board 2) (slot_ready.adapters 0).gsc_regs k
            ((countdown_board 2).store slot_ready.board (slot_ready.adapters 0).gsc_regs
              (.gsc .board_ctrl) 0x00008000))) ∧
      (loads evs).length = 2 + 1 ∧
      w1.adapters = slot_ready.adapters ∧ w1.adapter_count = slot_ready.adapter_count :=
  C3_reset_board_polls (countdown_board 2) false 0 slot_ready 2 (by decide) (by decide) 3
    (by decide)

/-- What the driver's 32-bit read conversion decodes from a register holding `v`. -/
theorem print_reg_32_value (be : Bool) (v : Nat) :
    PRINT_REG_32 be (le_bytes 4 v) = v % 2 ^ 32 := by
  rw [PRINT_REG_32, load_value_32, Nat.mod_mod]

theorem mask_bits (i : Nat) (hi : i < 32) (h11 : i ≠ 11) :
    (2 ^ 32 - 1 - 2 ^ 11 : Nat).testBit i = true := by
  interval_cases i <;> first | exact absurd rfl h11 | decide

theorem and_mask_bits (x : Nat) (hx : x < 2 ^ 32) (i : Nat) (h11 : i ≠ 11) :
    (x &&& (2 ^ 32 - 1 - 2 ^ 11)).testBit i = x.testBit i := by
  rw [Nat.testBit_land]
  by_cases hi : i < 32
  · rw [mask_bits i hi h11, Bool.and_true]
  · have hlt : x < 2 ^ i :=
      Nat.lt_of_lt_of_le hx (Nat.pow_le_pow_right (by norm_num) (by omega))
    rw [Nat.testBit_lt_two_pow hlt, Bool.false_and]

/-- What `device_disable_plx_interrupts` does on any board: one load of `int_ctrl`, one store
of the loaded number with bit 11 cleared. -/
theorem disable_plx_interrupts_run {σ : Type} (hw : Board σ) (be : Bool) (adapter : Nat)
    (w : World σ) :
    device_disable_plx_interrupts hw be adapter w =
      { w with
        board := hw.store (hw.load w.board (w.adapters adapter).plx_regs (.plx .int_ctrl)).2
          (w.adapters adapter).plx_regs (.plx .int_ctrl)
          ((hw.load w.board (w.adapters adapter).plx_regs (.plx .int_ctrl)).1 % 2 ^ 32
            &&& (2 ^ 32 - 1 - 2 ^ 11)),
        log := w.log ++
          [Event.load (w.adapters adapter).plx_regs (.plx .int_ctrl)
            ((hw.load w.board (w.adapters adapter).plx_regs (.plx .int_ctrl)).1 % 2 ^ 32),
           Event.store (w.adapters adapter).plx_regs (.plx .int_ctrl)
            ((hw.load w.board (w.adapters adapter).plx_regs (.plx .int_ctrl)).1 % 2 ^ 32
              &&& (2 ^ 32 - 1 - 2 ^ 11))] } := by
  have hlt : ∀ v : Nat, (v % 2 ^ 32 &&& (2 ^ 32 - 1 - 2 ^ 11)) % 2 ^ 32 =
      v % 2 ^ 32 &&& (2 ^ 32 - 1 - 2 ^ 11) := by
    intro v
    apply Nat.mod_eq_of_lt
    exact Nat.lt_of_le_of_lt Nat.and_le_left (Nat.mod_lt _ (by norm_num))
  have h256 : (256 : Nat) ^ 4 = 2 ^ 32 := by norm_num
  simp only [device_disable_plx_interrupts, mmio_load, mmio_store, width_int_ctrl,
    load_value_32, store_value_32, h256, Nat.mod_mod, hlt, List.append_assoc,
    List.singleton_append]

/-- C10: on a register file (each register keeps what was stored), for every 32-bit content `x`
of the bridge's `int_ctrl` and either host byte order, `device_disable_plx_interrupts` leaves
`int_ctrl` holding `x AND 0xFFFFF7FF`, which is also what the driver's read conversion decodes
from it; bit 11 of the result is 0 and every other bit is that of `x`; every other register
keeps its content; the routine performs one load and one store, both of `int_ctrl`; the adapter
table is untouched; and running the routine a second time leaves the registers as the first run
did. -/
theorem C10_disable_plx_interrupts (be : Bool) (adapter : Nat) (w : World (Nat → Reg → Nat))
    (x : Nat) (hx : w.board (w.adapters adapter).plx_regs (.plx .int_ctrl) = x)
    (h32 : x < 2 ^ 32) :
    (device_disable_plx_interrupts ram be adapter w).board
        (w.adapters adapter).plx_regs (.plx .int_ctrl) = x &&& 0xFFFFF7FF ∧
    PRINT_REG_32 be (le_bytes 4 ((device_disable_plx_interrupts ram be adapter w).board
        (w.adapters adapter).plx_regs (.plx .int_ctrl))) = x &&& 0xFFFFF7FF ∧
    (x &&& 0xFFFFF7FF).testBit 11 = false ∧
    (∀ i, i ≠ 11 → (x &&& 0xFFFFF7FF).testBit i = x.testBit i) ∧
    (∀ b r, ¬ (b = (w.adapters adapter).plx_regs ∧ r = Reg.plx .int_ctrl) →
      (device_disable_plx_interrupts ram be adapter w).board b r = w.board b r) ∧
    (device_disable_plx_interrupts ram be adapter w).log = w.log ++
      [Event.load (w.adapters adapter).plx_regs (.plx .int_ctrl) x,
       Event.store (w.adapters adapter).plx_regs (.plx .int_ctrl) (x &&& 0xFFFFF7FF)] ∧
    (device_disable_plx_interrupts ram be adapter w).adapters = w.adapters ∧
    (device_disable_plx_interrupts ram be adapter w).adapter_count = w.adapter_count ∧
    (device_disable_plx_interrupts ram be adapter
      (device_disable_plx_interrupts ram be adapter w)).board =
      (device_disable_plx_interrupts ram be adapter w).board := by
  have hm : (2 ^ 32 - 1 - 2 ^ 11 : Nat) = 0xFFFFF7FF := by norm_num
  have hxm : x % 2 ^ 32 = x := Nat.mod_eq_of_lt h32
  have hlt : x &&& 0xFFFFF7FF < 2 ^ 32 := Nat.lt_of_le_of_lt Nat.and_le_left h32
  have hidem : (x &&& 0xFFFFF7FF) % 2 ^ 32 &&& 0xFFFFF7FF = x &&& 0xFFFFF7FF := by
    have hmm : (0xFFFFF7FF &&& 0xFFFFF7FF : Nat) = 0xFFFFF7FF := by decide
    rw [Nat.mod_eq_of_lt hlt, Nat.land_assoc, hmm]
  have hxm2 : x % 4294967296 = x := hxm
  have hx2 : x < 4294967296 := h32
  have hidem2 : (x &&& 4294965247) % 4294967296 &&& 4294965247 = x &&& 4294965247 := hidem
  refine ⟨?_, ?_, ?_, ?_, ?_, ?_, ?_, ?_, ?_⟩
  · simp [disable_plx_interrupts_run, ram, hx, hxm2]
  · have : PRINT_REG_32 be (le_bytes 4 (x &&& 0xFFFFF7FF)) = x &&& 0xFFFFF7FF := by
      rw [print_reg_32_value, Nat.mod_eq_of_lt hlt]
    simpa [disable_plx_interrupts_run, ram, hx, hxm2] using this
  · rw [Nat.testBit_land]
    have : (0xFFFFF7FF : Nat).testBit 11 = false := by decide
    rw [this, Bool.and_false]
  · intro i hi
    have := and_mask_bits x h32 i hi
    rwa [hm] at this
  · intro b r hbr
    simp only [disable_plx_interrupts_run, ram]
    rw [if_neg hbr]
  · simp [disable_plx_interrupts_run, ram, hx, hxm2]
  · simp [disable_plx_interrupts_run]
  · simp [disable_plx_interrupts_run]
  · funext b r
    by_cases hbr : b = (w.adapters adapter).plx_regs ∧ r = Reg.plx .int_ctrl
    · simp [disable_plx_interrupts_run, ram, hx, hxm2, hidem2, hbr]
    · simp [disable_plx_interrupts_run, ram, hx, hxm2, hidem2, hbr]

/-- C10 at a concrete register file: every register holds 0xFFFFFFFF, little-endian host. -/
theorem C10_disable_plx_interrupts_witness :
    (device_disable_plx_interrupts ram false 0 (ram_world 0xFFFFFFFF)).board
        ((ram_world 0xFFFFFFFF).adapters 0).plx_regs (.plx .int_ctrl) =
          0xFFFFFFFF &&& 0xFFFFF7FF ∧
    PRINT_REG_32 false (le_bytes 4
      ((device_disable_plx_interrupts ram false 0 (ram_world 0xFFFFFFFF)).board
        ((ram_world 0xFFFFFFFF).adapters 0).plx_regs (.plx .int_ctrl))) =
          0xFFFFFFFF &&& 0xFFFFF7FF ∧
    (0xFFFFFFFF &&& 0xFFFFF7FF).testBit 11 = false ∧
    (∀ i, i ≠ 11 → (0xFFFFFFFF &&& 0xFFFFF7FF).testBit i = (0xFFFFFFFF).testBit i) ∧
    (∀ b r, ¬ (b = ((ram_world 0xFFFFFFFF).adapters 0).plx_regs ∧ r = Reg.plx .int_ctrl) →
      (device_disable_plx_interrupts ram false 0 (ram_world 0xFFFFFFFF)).board b r =
        (ram_world 0xFFFFFFFF).board b r) ∧
    (device_disable_plx_interrupts ram false 0 (ram_world 0xFFFFFFFF)).log =
      (ram_world 0xFFFFFFFF).log ++
      [Event.load ((ram_world 0xFFFFFFFF).adapters 0).plx_regs (.plx .int_ctrl) 0xFFFFFFFF,
       Event.store ((ram_world 0xFFFFFFFF).adapters 0).plx_regs (.plx .int_ctrl)
        (0xFFFFFFFF &&& 0xFFFFF7FF)] ∧
    (device_disable_plx_interrupts ram false 0 (ram_world 0xFFFFFFFF)).adapters =
      (ram_world 0xFFFFFFFF).adapters ∧
    (device_disable_plx_interrupts ram false 0 (ram_world 0xFFFFFFFF)).adapter_count =
      (ram_world 0xFFFFFFFF).adapter_count ∧
    (device_disable_plx_interrupts ram false 0
      (device_disable_plx_interrupts ram false 0 (ram_world 0xFFFFFFFF))).board =
      (device_disable_plx_interrupts ram false 0 (ram_world 0xFFFFFFFF)).board :=
  C10_disable_plx_interrupts false 0 (ram_world 0xFFFFFFFF) 0xFFFFFFFF rfl (by decide)

/-! ## The probe callback, block by block -/

theorem stores_dump_events {σ : Type} (hw : Board σ) (be : Bool) (base : Nat)
    (l : List (Fmt × Reg)) : ∀ s : σ, stores (dump_events hw be base l s) = [] := by
  induction l with
  | nil => intro s; rfl
  | cons p ps ih => intro s; simp [dump_events, stores, ih]

theorem passive_dump_events {σ : Type} (hw : Board σ) (be : Bool) (base : Nat)
    (l : List (Fmt × Reg)) : ∀ s : σ, (dump_events hw be base l s).all passive = true := by
  induction l with
  | nil => intro s; rfl
  | cons p ps ih => intro s; simp [dump_events, passive, ih]

theorem stores_of_passive (evs : List Event) (h : evs.all passive = true) : stores evs = [] := by
  induction evs with
  | nil => rfl
  | cons e es ih =>
    simp only [List.all_cons, Bool.and_eq_true] at h
    cases e <;> simp_all [stores, passive]

theorem print_regs_run {σ : Type} (hw : Board σ) (be : Bool) (base : Nat)
    (l : List (Fmt × Reg)) :
    ∀ w : World σ, print_regs hw be base l w =
      { w with board := dump_board hw base l w.board,
               log := w.log ++ dump_events hw be base l w.board } := by
  induction l with
  | nil => intro w; simp [print_regs, dump_board, dump_events]
  | cons p ps ih =>
    intro w
    rw [print_regs, ih]
    simp only [print_reg, mmio_load, emit, dump_board, dump_events, List.append_assoc,
      List.singleton_append, List.cons_append, List.nil_append]

theorem device_print_gsc_regs_run {σ : Type} (hw : Board σ) (be : Bool) (adapter : Nat)
    (w : World σ) :
    device_print_gsc_regs hw be adapter w =
      { w with
        board := dump_board hw (w.adapters adapter).gsc_regs
          (gsc_dump.map (fun p => (p.1, Reg.gsc p.2))) w.board,
        log := w.log ++ Event.printk .device_print_gsc_regs ::
          dump_events hw be (w.adapters adapter).gsc_regs
            (gsc_dump.map (fun p => (p.1, Reg.gsc p.2))) w.board } := by
  rw [device_print_gsc_regs, print_regs_run]
  simp only [emit, List.append_assoc, List.singleton_append]

theorem device_print_plx_regs_run {σ : Type} (hw : Board σ) (be : Bool) (adapter : Nat)
    (w : World σ) :
    device_print_plx_regs hw be adapter w =
      { w with
        board := dump_board hw (w.adapters adapter).plx_regs
          (plx_dump.map (fun p => (p.1, Reg.plx p.2))) w.board,
        log := w.log ++ Event.printk .device_print_plx_regs ::
          dump_events hw be (w.adapters adapter).plx_regs
            (plx_dump.map (fun p => (p.1, Reg.plx p.2))) w.board } := by
  rw [device_print_plx_regs, print_regs_run]
  simp only [emit, List.append_assoc, List.singleton_append]

/-- The entry `device_init` writes at index `adapter_count`. -/
theorem device_init_slot_run {σ : Type} (pf : Platform) (dev : pci_dev) (w : World σ) :
    ∃ evs, device_init_slot pf dev w =
      { w with
        proc_file := if w.adapter_count = 0 then pf.proc_create else w.proc_file,
        class_ptr := if w.adapter_count = 0 then pf.class_create else w.class_ptr,
        adapters := fun j =>
          if j = w.adapter_count then
            { dev := dev.addr, dev_minor := int_of_u32 (w.adapter_count + 1),
              gsc_regs := pf.bar2, plx_regs := pf.bar0, irq := int_of_u32 dev.irq }
          else w.adapters j,
        log := w.log ++ evs } ∧ stores evs = [] := by
  refine ⟨[Event.printk (.device_init dev.addr)] ++
    (if w.adapter_count = 0 then
      [Event.call .proc_create, Event.call .register_chrdev, Event.call .class_create]
     else []) ++
    [Event.printk (.will_request_irq (int_of_u32 w.adapter_count) (int_of_u32 dev.irq) dev.addr),
     Event.call (.pci_request_regions dev.addr)] ++
    (if pf.pci_request_regions ≠ 0 then [Event.printk .pci_request_regions_failed] else []) ++
    [Event.call (.pci_ioremap_bar dev.addr 0), Event.call (.pci_ioremap_bar dev.addr 2)],
    ?_, ?_⟩
  · by_cases h0 : w.adapter_count = 0 <;> by_cases hr : pf.pci_request_regions = 0
    all_goals
      simp only [device_init_slot, emit, set_adapter, h0, hr, if_true, if_false, ne_eq,
        not_true_eq_false, not_false_eq_true, List.append_assoc, List.singleton_append,
        List.cons_append, List.nil_append]
      congr 1
      funext j
      by_cases hj : j = w.adapter_count <;> simp_all
  · by_cases h0 : w.adapter_count = 0 <;> by_cases hr : pf.pci_request_regions = 0 <;>
      simp [stores, h0, hr]

/-- Lines 338-359 change the card and the record of events only, and store to `int_ctrl`,
`out_buf_ctrl` and `dma0mode`. -/
theorem device_init_quiesce_run {σ : Type} (hw : Board σ) (be : Bool) (pf : Platform)
    (adapter : Nat) (w : World σ) :
    ∃ s evs, device_init_quiesce hw be pf adapter w =
      { w with board := s, log := w.log ++ evs } ∧
      (stores evs).map (fun t => (t.1, t.2.1)) =
        [ ((w.adapters adapter).plx_regs, Reg.plx .int_ctrl),
          ((w.adapters adapter).gsc_regs, Reg.gsc .out_buf_ctrl),
          ((w.adapters adapter).plx_regs, Reg.plx .dma0mode) ] := by
  by_cases h1 : pf.pci_enable_device = 0 <;> by_cases h2 : pf.pci_set_dma_mask = 0
  all_goals
    apply Exists.intro
    apply Exists.intro
    constructor
    · simp only [device_init_quiesce, disable_plx_interrupts_run, device_print_gsc_regs_run,
        device_print_plx_regs_run, emit, mmio_store, h1, h2, if_true, if_false, ne_eq,
        not_true_eq_false, not_false_eq_true, List.append_assoc, List.singleton_append,
        List.cons_append, List.nil_append]
      rfl
    · simp [stores, stores_append, stores_dump_events]

/-- Lines 362-380 with a buffer that is not `NULL`: the buffer calls, then nine stores to the
bridge and nothing else. -/
theorem device_init_dma_run {σ : Type} (hw : Board σ) (be : Bool) (pf : Platform)
    (adapter : Nat) (w : World σ) (hk : pf.kmalloc ≠ 0) :
    ∃ s, device_init_dma hw be pf adapter w = .ok
      { w with
        dma_vaddr := pf.kmalloc, dma_paddr := pf.pci_map_single, board := s,
        log := w.log ++
          [ Event.call (.kmalloc 32),
            Event.call (.memset pf.kmalloc 0x22 4),
            Event.call (.pci_map_single (w.adapters adapter).dev pf.kmalloc 4),
            Event.store (w.adapters adapter).plx_regs (.plx .dmacmd) 0x08,
            Event.store (w.adapters adapter).plx_regs (.plx .dmacmd) 0x00,
            Event.store (w.adapters adapter).plx_regs (.plx .dma0mode) 0x00020D43,
            Event.store (w.adapters adapter).plx_regs (.plx .dma0pciaddr)
              (pf.pci_map_single % 2 ^ 32),
            Event.store (w.adapters adapter).plx_regs (.plx .dma0lcladdr) 0x1C,
            Event.store (w.adapters adapter).plx_regs (.plx .dma0bytecnt) 0x4,
            Event.store (w.adapters adapter).plx_regs (.plx .dma0pnt) 0x0,
            Event.store (w.adapters adapter).plx_regs (.plx .dmacmd) 0x1,
            Event.store (w.adapters adapter).plx_regs (.plx .dmacmd) 0x3 ] } := by
  apply Exists.intro
  simp only [device_init_dma, emit, mmio_store, store_value_32, store_value_16, hk, if_false,
    List.append_assoc, List.singleton_append, List.cons_append, List.nil_append]
  norm_num
  rfl

/-- A buffer that is `NULL` stops `device_init` at the `memset`. -/
theorem device_init_dma_null {σ : Type} (hw : Board σ) (be : Bool) (pf : Platform)
    (adapter : Nat) (w : World σ) (hk : pf.kmalloc = 0) :
    device_init_dma hw be pf adapter w = .error .null_deref := by
  simp [device_init_dma, emit, hk]

theorem width_gsc (f : gsc_field) : Reg.width (.gsc f) = 4 := by
  cases f <;> rfl

/-- A dump of board registers with `PRINT_REG_32` prints, for each register, the number it
loaded. -/
theorem dump_events_gsc {σ : Type} (hw : Board σ) (be : Bool) (base : Nat)
    (fs : List gsc_field) :
    ∀ s : σ, ∃ vs : List Nat, vs.length = fs.length ∧
      dump_events hw be base (fs.map (fun f => (Fmt.r32, Reg.gsc f))) s =
        gsc_lines base (fs.zip vs) := by
  induction fs with
  | nil => intro s; exact ⟨[], rfl, rfl⟩
  | cons f fs ih =>
    intro s
    obtain ⟨vs, hlen, hvs⟩ := ih (hw.load s base (.gsc f)).2
    refine ⟨(hw.load s base (.gsc f)).1 % 2 ^ 32 :: vs, by simp [hlen], ?_⟩
    have h256 : (256 : Nat) ^ 4 = 2 ^ 32 := by norm_num
    simp only [List.map_cons, dump_events, width_gsc, h256, print_reg_32_value, Nat.mod_mod,
      hvs]
    rfl

/-- Lines 382-396: the message, the dump header, one load and one printed line per board
register showing the number loaded, the device node, and the count going up by one. -/
theorem device_init_finish_run {σ : Type} (hw : Board σ) (be : Bool) (adapter : Nat)
    (w : World σ) :
    ∃ s vs, vs.length = 12 ∧ device_init_finish hw be adapter w =
      { w with
        adapter_count := (w.adapter_count + 1) % 2 ^ 32, board := s,
        log := w.log ++
          (Event.printk .dma_transfer_initiated :: Event.printk .device_print_gsc_regs ::
            (gsc_lines (w.adapters adapter).gsc_regs
              ([ gsc_field.board_ctrl, .intr_ctrl, .inp_data_buf, .inp_buf_ctrl, .rate_a_gen,
                 .rate_b_gen, .out_data_buf, .out_buf_ctrl, .scan_sync_ctrl, .io_port, .fw_rev,
                 .autocal ].zip vs) ++
          [Event.call (.device_create (w.adapters adapter).dev_minor w.adapter_count)])) } := by
  have hl : gsc_dump.map (fun p => (p.1, Reg.gsc p.2)) =
      [ gsc_field.board_ctrl, .intr_ctrl, .inp_data_buf, .inp_buf_ctrl, .rate_a_gen,
        .rate_b_gen, .out_data_buf, .out_buf_ctrl, .scan_sync_ctrl, .io_port, .fw_rev,
        .autocal ].map (fun f => (Fmt.r32, Reg.gsc f)) := rfl
  obtain ⟨vs, hlen, hvs⟩ := dump_events_gsc hw be (w.adapters adapter).gsc_regs
    [ gsc_field.board_ctrl, .intr_ctrl, .inp_data_buf, .inp_buf_ctrl, .rate_a_gen,
      .rate_b_gen, .out_data_buf, .out_buf_ctrl, .scan_sync_ctrl, .io_port, .fw_rev,
      .autocal ] w.board
  refine ⟨dump_board hw (w.adapters adapter).gsc_regs
      (gsc_dump.map (fun p => (p.1, Reg.gsc p.2))) w.board, vs, hlen, ?_⟩
  simp only [device_init_finish, device_print_gsc_regs_run, emit, hl, hvs, List.append_assoc,
    List.singleton_append, List.cons_append, List.nil_append]

/-- The whole of `device_init` when both mappings and the buffer are not `NULL` and the reset
poll ends after `N + 1` reads: return value 0, the entry written at index `adapter_count`, the
count raised by one, and the record of events: the bridge program of the transfer, then the
message, the dump header, the twelve dump lines and the device node. -/
theorem device_init_run {σ : Type} (hw : Board σ) (be : Bool) (pf : Platform) (dev : pci_dev)
    (w : World σ) (N : Nat)
    (hb0 : pf.bar0 ≠ 0) (hb2 : pf.bar2 ≠ 0) (hk : pf.kmalloc ≠ 0)
    (hbusy : ∀ k, k < N →
      poll_value hw pf.bar2 k (hw.store w.board pf.bar2 (.gsc .board_ctrl) 0x00008000)
        &&& 0x00008000 ≠ 0)
    (hclear :
      poll_value hw pf.bar2 N (hw.store w.board pf.bar2 (.gsc .board_ctrl) 0x00008000)
        &&& 0x00008000 = 0)
    (fuel : Nat) (hfuel : N < fuel) :
    ∃ s pre vs, vs.length = 12 ∧ device_init hw be fuel pf dev w = some (.ok (0,
      { proc_file := if w.adapter_count = 0 then pf.proc_create else w.proc_file,
        class_ptr := if w.adapter_count = 0 then pf.class_create else w.class_ptr,
        adapter_count := (w.adapter_count + 1) % 2 ^ 32,
        adapters := fun j =>
          if j = w.adapter_count then
            { dev := dev.addr, dev_minor := int_of_u32 (w.adapter_count + 1),
              gsc_regs := pf.bar2, plx_regs := pf.bar0, irq := int_of_u32 dev.irq }
          else w.adapters j,
        dma_vaddr := pf.kmalloc,
        dma_paddr := pf.pci_map_single,
        board := s,
        log := w.log ++ (pre ++
          ([ Event.call (.pci_map_single dev.addr pf.kmalloc 4),
             Event.store pf.bar0 (.plx .dmacmd) 0x08,
             Event.store pf.bar0 (.plx .dmacmd) 0x00,
             Event.store pf.bar0 (.plx .dma0mode) 0x00020D43,
             Event.store pf.bar0 (.plx .dma0pciaddr) (pf.pci_map_single % 2 ^ 32),
             Event.store pf.bar0 (.plx .dma0lcladdr) 0x1C,
             Event.store pf.bar0 (.plx .dma0bytecnt) 0x4,
             Event.store pf.bar0 (.plx .dma0pnt) 0x0,
             Event.store pf.bar0 (.plx .dmacmd) 0x1,
             Event.store pf.bar0 (.plx .dmacmd) 0x3 ] ++
           (Event.printk .dma_transfer_initiated :: Event.printk .device_print_gsc_regs ::
            (gsc_lines pf.bar2
              ([ gsc_field.board_ctrl, .intr_ctrl, .inp_data_buf, .inp_buf_ctrl, .rate_a_gen,
                  .rate_b_gen, .out_data_buf, .out_buf_ctrl, .scan_sync_ctrl, .io_port, .fw_rev,
                  .autocal ].zip vs) ++
            [Event.call (.device_create (int_of_u32 (w.adapter_count + 1))
              w.adapter_count)])))) })) ∧
      (stores pre).map (fun t => (t.1, t.2.1)) =
        [ (pf.bar2, Reg.gsc .board_ctrl), (pf.bar0, Reg.plx .int_ctrl),
          (pf.bar2, Reg.gsc .out_buf_ctrl), (pf.bar0, Reg.plx .dma0mode) ] := by
  obtain ⟨e0, h0, hs0⟩ := device_init_slot_run pf dev w
  have hreset := device_reset_board_run hw be w.adapter_count (device_init_slot pf dev w) N
    (by rw [h0]; simpa using hbusy) (by rw [h0]; simpa using hclear) fuel hfuel
  rw [h0] at hreset
  simp only [if_true] at hreset
  obtain ⟨s2, e2, h2, hs2⟩ := device_init_quiesce_run hw be pf w.adapter_count
    { w with
      proc_file := if w.adapter_count = 0 then pf.proc_create else w.proc_file,
      class_ptr := if w.adapter_count = 0 then pf.class_create else w.class_ptr,
      adapters := fun j =>
        if j = w.adapter_count then
          { dev := dev.addr, dev_minor := int_of_u32 (w.adapter_count + 1),
            gsc_regs := pf.bar2, plx_regs := pf.bar0, irq := int_of_u32 dev.irq }
        else w.adapters j,
      board := after_polls hw pf.bar2 (N + 1)
        (hw.store w.board pf.bar2 (.gsc .board_ctrl) 0x00008000),
      log := w.log ++ e0 ++
        Event.store pf.bar2 (.gsc .board_ctrl) 0x00008000 ::
          poll_events hw pf.bar2 (N + 1)
            (hw.store w.board pf.bar2 (.gsc .board_ctrl) 0x00008000) }
  obtain ⟨s3, h3⟩ := device_init_dma_run hw be pf w.adapter_count
    { w with
      proc_file := if w.adapter_count = 0 then pf.proc_create else w.proc_file,
      class_ptr := if w.adapter_count = 0 then pf.class_create else w.class_ptr,
      adapters := fun j =>
        if j = w.adapter_count then
          { dev := dev.addr, dev_minor := int_of_u32 (w.adapter_count + 1),
            gsc_regs := pf.bar2, plx_regs := pf.bar0, irq := int_of_u32 dev.irq }
        else w.adapters j,
      board := s2,
      log := w.log ++ e0 ++
        Event.store pf.bar2 (.gsc .board_ctrl) 0x00008000 ::
          poll_events hw pf.bar2 (N + 1)
            (hw.store w.board pf.bar2 (.gsc .board_ctrl) 0x00008000) ++ e2 } hk
  obtain ⟨s4, vs, hlen, h4⟩ := device_init_finish_run hw be w.adapter_count
    { w with
      proc_file := if w.adapter_count = 0 then pf.proc_create else w.proc_file,
      class_ptr := if w.adapter_count = 0 then pf.class_create else w.class_ptr,
      adapters := fun j =>
        if j = w.adapter_count then
          { dev := dev.addr, dev_minor := int_of_u32 (w.adapter_count + 1),
            gsc_regs := pf.bar2, plx_regs := pf.bar0, irq := int_of_u32 dev.irq }
        else w.adapters j,
      dma_vaddr := pf.kmalloc, dma_paddr := pf.pci_map_single,
      board := s3,
      log := w.log ++ e0 ++
        Event.store pf.bar2 (.gsc .board_ctrl) 0x00008000 ::
          poll_events hw pf.bar2 (N + 1)
            (hw.store w.board pf.bar2 (.gsc .board_ctrl) 0x00008000) ++ e2 ++
        [ Event.call (.kmalloc 32),
          Event.call (.memset pf.kmalloc 0x22 4),
          Event.call (.pci_map_single dev.addr pf.kmalloc 4),
          Event.store pf.bar0 (.plx .dmacmd) 0x08,
          Event.store pf.bar0 (.plx .dmacmd) 0x00,
          Event.store pf.bar0 (.plx .dma0mode) 0x00020D43,
          Event.store pf.bar0 (.plx .dma0pciaddr) (pf.pci_map_single % 2 ^ 32),
          Event.store pf.bar0 (.plx .dma0lcladdr) 0x1C,
          Event.store pf.bar0 (.plx .dma0bytecnt) 0x4,
          Event.store pf.bar0 (.plx .dma0pnt) 0x0,
          Event.store pf.bar0 (.plx .dmacmd) 0x1,
          Event.store pf.bar0 (.plx .dmacmd) 0x3 ] }
  simp only [if_true, List.append_assoc, List.cons_append, List.nil_append] at h2 h3 h4 hreset hs2
  refine ⟨s4, e0 ++ Event.store pf.bar2 (.gsc .board_ctrl) 0x00008000 ::
      (poll_events hw pf.bar2 (N + 1)
        (hw.store w.board pf.bar2 (.gsc .board_ctrl) 0x00008000) ++
      (e2 ++ [Event.call (.kmalloc 32), Event.call (.memset pf.kmalloc 0x22 4)])), vs, hlen,
    ?_, ?_⟩
  · simp only [device_init, h0, if_true, hb0, hb2, if_false, hreset, h2, h3, h4,
      List.append_assoc, List.cons_append, List.nil_append]
  · have h1 : stores (Event.store pf.bar2 (.gsc .board_ctrl) 0x00008000 ::
        (poll_events hw pf.bar2 (N + 1)
          (hw.store w.board pf.bar2 (.gsc .board_ctrl) 0x00008000) ++
        (e2 ++ [Event.call (.kmalloc 32), Event.call (.memset pf.kmalloc 0x22 4)]))) =
        (pf.bar2, Reg.gsc .board_ctrl, 0x00008000) :: stores e2 := by
      show _ :: stores _ = _
      rw [stores_append, stores_poll_events, stores_append, List.nil_append]
      simp [stores]
    rw [stores_append, hs0, List.nil_append, h1, List.map_cons, hs2]

theorem stores_gsc_lines (base : Nat) (l : List (gsc_field × Nat)) :
    stores (gsc_lines base l) = [] := by
  induction l with
  | nil => rfl
  | cons p ps ih => simp [gsc_lines, stores, ih]

/-- A board mapping that is `NULL` stops `device_init` at the first store of
`device_reset_board`, before any register access. -/
theorem device_init_null_bar2 {σ : Type} (hw : Board σ) (be : Bool) (fuel : Nat)
    (pf : Platform) (dev : pci_dev) (w : World σ) (h : pf.bar2 = 0) :
    device_init hw be fuel pf dev w = some (.error .null_deref) := by
  obtain ⟨e0, h0, -⟩ := device_init_slot_run pf dev w
  simp only [device_init, h0, if_true, h]

/-! ## Claims on the transfer -/

/-- C2: for every bus address `a` returned by `pci_map_single`, either host byte order and
every board on which the reset poll ends, when the two mappings and the transfer buffer are not
`NULL` and the entry `adapters[adapter_count]` lies inside the array, `device_init` returns, and
in what it did the call `pci_map_single` is followed at once by exactly these bridge stores, in
this order: `dmacmd := 0x08`, `dmacmd := 0x00`, `dma0mode := 0x00020D43`,
`dma0pciaddr := a mod 2^32`, `dma0lcladdr := 0x1C`, `dma0bytecnt := 4`, `dma0pnt := 0`,
`dmacmd := 0x1`, `dmacmd := 0x3`; nothing is stored to any register after them, and the only
registers stored to before them are `board_ctrl`, `int_ctrl`, `out_buf_ctrl` and `dma0mode`, so
the nine stores are all of the bridge program: enable (0x1) and start (0x3) are two stores, the
clear-interrupts pulse precedes the descriptor, and the descriptor keeps source `a mod 2^32`,
destination 0x1C and count 4.  (With a `NULL` mapping or buffer the code faults before the
program; past the end of the array its behaviour is not defined.) -/
theorem C2_dma_register_program {σ : Type} (hw : Board σ) (be : Bool) (pf : Platform)
    (dev : pci_dev) (w : World σ) (N : Nat)
    (_hslot : w.adapter_count < NUM_MAX_ADAPTERS)
    (hb0 : pf.bar0 ≠ 0) (hb2 : pf.bar2 ≠ 0) (hk : pf.kmalloc ≠ 0)
    (hbusy : ∀ k, k < N →
      poll_value hw pf.bar2 k (hw.store w.board pf.bar2 (.gsc .board_ctrl) 0x00008000)
        &&& 0x00008000 ≠ 0)
    (hclear :
      poll_value hw pf.bar2 N (hw.store w.board pf.bar2 (.gsc .board_ctrl) 0x00008000)
        &&& 0x00008000 = 0)
    (fuel : Nat) (hfuel : N < fuel) :
    ∃ r pre post, device_init hw be fuel pf dev w = some (.ok (0, r)) ∧
      r.log = w.log ++ pre ++
        [ Event.call (.pci_map_single dev.addr pf.kmalloc 4),
          Event.store pf.bar0 (.plx .dmacmd) 0x08,
          Event.store pf.bar0 (.plx .dmacmd) 0x00,
          Event.store pf.bar0 (.plx .dma0mode) 0x00020D43,
          Event.store pf.bar0 (.plx .dma0pciaddr) (pf.pci_map_single % 2 ^ 32),
          Event.store pf.bar0 (.plx .dma0lcladdr) 0x1C,
          Event.store pf.bar0 (.plx .dma0bytecnt) 4,
          Event.store pf.bar0 (.plx .dma0pnt) 0,
          Event.store pf.bar0 (.plx .dmacmd) 0x1,
          Event.store pf.bar0 (.plx .dmacmd) 0x3 ] ++ post ∧
      (stores pre).map (fun t => (t.1, t.2.1)) =
        [ (pf.bar2, Reg.gsc .board_ctrl), (pf.bar0, Reg.plx .int_ctrl),
          (pf.bar2, Reg.gsc .out_buf_ctrl), (pf.bar0, Reg.plx .dma0mode) ] ∧
      stores post = [] := by
  obtain ⟨s, pre, vs, -, h, hpre⟩ :=
    device_init_run hw be pf dev w N hb0 hb2 hk hbusy hclear fuel hfuel
  refine ⟨_, pre,
    Event.printk .dma_transfer_initiated :: Event.printk .device_print_gsc_regs ::
      (gsc_lines pf.bar2
        ([ gsc_field.board_ctrl, .intr_ctrl, .inp_data_buf, .inp_buf_ctrl, .rate_a_gen,
           .rate_b_gen, .out_data_buf, .out_buf_ctrl, .scan_sync_ctrl, .io_port, .fw_rev,
           .autocal ].zip vs) ++
      [Event.call (.device_create (int_of_u32 (w.adapter_count + 1)) w.adapter_count)]),
    h, ?_, hpre, ?_⟩
  · simp only [List.append_assoc, List.cons_append, List.nil_append]
  · simp [stores, stores_append, stores_gsc_lines]

/-- C2 at a concrete probe: sample device 1 on a board that is busy for 2 polls. -/
theorem C2_dma_register_program_witness :
    ∃ r pre post,
      device_init (countdown_board 2) false 3 (sample_platform 1) (sample_dev 1) (boot 0) =
        some (.ok (0, r)) ∧
      r.log = (boot 0).log ++ pre ++
        [ Event.call (.pci_map_single (sample_dev 1).addr (sample_platform 1).kmalloc 4),
          Event.store (sample_platform 1).bar0 (.plx .dmacmd) 0x08,
          Event.store (sample_platform 1).bar0 (.plx .dmacmd) 0x00,
          Event.store (sample_platform 1).bar0 (.plx .dma0mode) 0x00020D43,
          Event.store (sample_platform 1).bar0 (.plx .dma0pciaddr)
            ((sample_platform 1).pci_map_single % 2 ^ 32),
          Event.store (sample_platform 1).bar0 (.plx .dma0lcladdr) 0x1C,
          Event.store (sample_platform 1).bar0 (.plx .dma0bytecnt) 4,
          Event.store (sample_platform 1).bar0 (.plx .dma0pnt) 0,
          Event.store (sample_platform 1).bar0 (.plx .dmacmd) 0x1,
          Event.store (sample_platform 1).bar0 (.plx .dmacmd) 0x3 ] ++ post ∧
      (stores pre).map (fun t => (t.1, t.2.1)) =
        [ ((sample_platform 1).bar2, Reg.gsc .board_ctrl),
          ((sample_platform 1).bar0, Reg.plx .int_ctrl),
          ((sample_platform 1).bar2, Reg.gsc .out_buf_ctrl),
          ((sample_platform 1).bar0, Reg.plx .dma0mode) ] ∧
      stores post = [] :=
  C2_dma_register_program (countdown_board 2) false (sample_platform 1) (sample_dev 1) (boot 0)
    2 (by decide) (by decide) (by decide) (by decide) (by decide) (by decide) 3 (by decide)

/-- C1 (as amended): `device_init` makes no comparison of the value read back from
`out_buf_ctrl` with the sentinel and has no failure outcome for it.  On every board on which the
reset poll ends, whatever the board answers afterwards (mappings and buffer not `NULL`, entry
inside the array), everything `device_init` does after the start command (`dmacmd := 0x3`) is:
the line "DMA Transferred Initiated!", the header of the dump, then for each of the twelve board
registers in declaration order one load and one printed line with its name, its offset and the
number just loaded (the eighth pair is `out_buf_ctrl` with the value read back), then the
creation of the device node; it returns 0, with the entry at index `adapter_count` filled and the
count raised by one. -/
theorem C1_readback_only_printed {σ : Type} (hw : Board σ) (be : Bool) (pf : Platform)
    (dev : pci_dev) (w : World σ) (N : Nat)
    (_hslot : w.adapter_count < NUM_MAX_ADAPTERS)
    (hb0 : pf.bar0 ≠ 0) (hb2 : pf.bar2 ≠ 0) (hk : pf.kmalloc ≠ 0)
    (hbusy : ∀ k, k < N →
      poll_value hw pf.bar2 k (hw.store w.board pf.bar2 (.gsc .board_ctrl) 0x00008000)
        &&& 0x00008000 ≠ 0)
    (hclear :
      poll_value hw pf.bar2 N (hw.store w.board pf.bar2 (.gsc .board_ctrl) 0x00008000)
        &&& 0x00008000 = 0)
    (fuel : Nat) (hfuel : N < fuel) :
    ∃ r pre vs, device_init hw be fuel pf dev w = some (.ok (0, r)) ∧
      vs.length = 12 ∧
      r.log = w.log ++ pre ++ [Event.store pf.bar0 (.plx .dmacmd) 0x3] ++
        [Event.printk .dma_transfer_initiated, Event.printk .device_print_gsc_regs] ++
        gsc_lines pf.bar2
          ([ gsc_field.board_ctrl, .intr_ctrl, .inp_data_buf, .inp_buf_ctrl, .rate_a_gen,
             .rate_b_gen, .out_data_buf, .out_buf_ctrl, .scan_sync_ctrl, .io_port, .fw_rev,
             .autocal ].zip vs) ++
        [Event.call (.device_create (int_of_u32 (w.adapter_count + 1)) w.adapter_count)] ∧
      r.adapter_count = (w.adapter_count + 1) % 2 ^ 32 ∧
      r.adapters w.adapter_count =
        { dev := dev.addr, dev_minor := int_of_u32 (w.adapter_count + 1),
          gsc_regs := pf.bar2, plx_regs := pf.bar0, irq := int_of_u32 dev.irq } := by
  obtain ⟨s, pre, vs, hlen, h, -⟩ :=
    device_init_run hw be pf dev w N hb0 hb2 hk hbusy hclear fuel hfuel
  refine ⟨_, pre ++
    [ Event.call (.pci_map_single dev.addr pf.kmalloc 4),
      Event.store pf.bar0 (.plx .dmacmd) 0x08,
      Event.store pf.bar0 (.plx .dmacmd) 0x00,
      Event.store pf.bar0 (.plx .dma0mode) 0x00020D43,
      Event.store pf.bar0 (.plx .dma0pciaddr) (pf.pci_map_single % 2 ^ 32),
      Event.store pf.bar0 (.plx .dma0lcladdr) 0x1C,
      Event.store pf.bar0 (.plx .dma0bytecnt) 0x4,
      Event.store pf.bar0 (.plx .dma0pnt) 0x0,
      Event.store pf.bar0 (.plx .dmacmd) 0x1 ], vs, h, hlen, ?_, rfl, ?_⟩
  · simp only [List.append_assoc, List.cons_append, List.nil_append]
  · simp

/-- C1 (as amended) at a concrete probe: sample device 1 on a board that is busy for 2 polls. -/
theorem C1_readback_only_printed_witness :
    ∃ r pre vs,
      device_init (countdown_board 2) false 3 (sample_platform 1) (sample_dev 1) (boot 0) =
        some (.ok (0, r)) ∧
      vs.length = 12 ∧
      r.log = (boot 0).log ++ pre ++
        [Event.store (sample_platform 1).bar0 (.plx .dmacmd) 0x3] ++
        [Event.printk .dma_transfer_initiated, Event.printk .device_print_gsc_regs] ++
        gsc_lines (sample_platform 1).bar2
          ([ gsc_field.board_ctrl, .intr_ctrl, .inp_data_buf, .inp_buf_ctrl, .rate_a_gen,
             .rate_b_gen, .out_data_buf, .out_buf_ctrl, .scan_sync_ctrl, .io_port, .fw_rev,
             .autocal ].zip vs) ++
        [Event.call (.device_create (int_of_u32 ((boot 0 : World Nat).adapter_count + 1))
          (boot 0 : World Nat).adapter_count)] ∧
      r.adapter_count = ((boot 0 : World Nat).adapter_count + 1) % 2 ^ 32 ∧
      r.adapters (boot 0 : World Nat).adapter_count =
        { dev := (sample_dev 1).addr,
          dev_minor := int_of_u32 ((boot 0 : World Nat).adapter_count + 1),
          gsc_regs := (sample_platform 1).bar2, plx_regs := (sample_platform 1).bar0,
          irq := int_of_u32 (sample_dev 1).irq } :=
  C1_readback_only_printed (countdown_board 2) false (sample_platform 1) (sample_dev 1) (boot 0)
    2 (by decide) (by decide) (by decide) (by decide) (by decide) (by decide) 3 (by decide)

set_option maxRecDepth 100000 in
/-- C1 (as stated, refuted): a board whose engine delivers 0xAA instead of the sentinel
0x22222222.  The value read back after the transfer is 0xAA, yet the return value (0), the
adapter count, the adapter entry and every event other than the loads and the printed register
lines are those of the probe in which 0x22222222 is read back: no failure is signalled. -/
theorem C1_mismatch_not_signalled :
    (0xAA : Nat) ≠ 0x22222222 ∧
    (probe_outcome 0xAA).map (fun o => o.2.2.2.2) = some [0xAA, 0xAA] ∧
    (probe_outcome 0x22222222).map (fun o => o.2.2.2.2) = some [0xAA, 0x22222222] ∧
    (probe_outcome 0xAA).map (fun o => (o.1, o.2.1, o.2.2.1, o.2.2.2.1)) =
      (probe_outcome 0x22222222).map (fun o => (o.1, o.2.1, o.2.2.1, o.2.2.2.1)) ∧
    (probe_outcome 0xAA).map (fun o => o.1) = some 0 := by
  decide!

/-! ## Claims on the adapter table -/

/-- Whenever the search of `device_exit` finds no entry for the device, the call ends in the
dereference of the `NULL` adapter. -/
theorem device_exit_not_found {σ : Type} (hw : Board σ) (be : Bool) (dev : Nat) (w : World σ)
    (h : find_adapter w dev = none) : device_exit hw be dev w = .error .null_deref := by
  have h1 : find_adapter (emit (.printk .device_exit) w) dev = none := h
  simp only [device_exit, h1]

set_option maxRecDepth 100000 in
/-- C4 (defect): with four adapters registered, a fifth `device_init` does not fail.  It returns
as the others do, stores the new entry at index 4, past the end of `adapters[4]`, and leaves
`adapter_count` at 5. -/
theorem C4_fifth_probe_past_the_end :
    run_steps [.probe 1, .probe 2, .probe 3, .probe 4] (boot 0) =
      .state 4 [(0x101, 1), (0x102, 2), (0x103, 3), (0x104, 4), (0, 0)] 0 ∧
    run_steps [.probe 1, .probe 2, .probe 3, .probe 4, .probe 5] (boot 0) =
      .state 5 [(0x101, 1), (0x102, 2), (0x103, 3), (0x104, 4), (0x105, 5)] 0 ∧
    ((probe_all [4, 3, 2, 1]).bind (probe 5)).map (fun r => r.1) = some 0 ∧
    ¬ (4 < NUM_MAX_ADAPTERS) := by
  decide!

set_option maxRecDepth 100000 in
/-- C5 (defect): two devices registered, the one in entry 0 removed, a third device probed.
The new device does not take the vacated entry 0: it is stored at index `adapter_count` = 1,
over the entry of the device still registered there, with `dev_minor` 2; entry 0 stays zero. -/
theorem C5_vacated_entry_not_reused :
    run_steps [.probe 1, .probe 2] (boot 0) =
      .state 2 [(0x101, 1), (0x102, 2), (0, 0), (0, 0), (0, 0)] 0 ∧
    run_steps [.probe 1, .probe 2, .remove 1] (boot 0) =
      .state 1 [(0, 0), (0x102, 2), (0, 0), (0, 0), (0, 0)] 0 ∧
    run_steps [.probe 1, .probe 2, .remove 1, .probe 3] (boot 0) =
      .state 2 [(0, 0), (0x103, 2), (0, 0), (0, 0), (0, 0)] 0 := by
  decide!

set_option maxRecDepth 100000 in
/-- C6 (defect): two devices registered and removed in the order of their registration.  The
second `device_exit` searches entries below `adapter_count` = 1 only, does not find its device
(still in entry 1) and dereferences the `NULL` adapter; the count never reaches zero and the
shared teardown is never made.  Removal in the reverse order does what the claim says. -/
theorem C6_removal_in_probe_order_faults :
    run_steps [.probe 1, .probe 2, .remove 1, .remove 2] (boot 0) = .fault .null_deref ∧
    run_steps [.probe 1, .probe 2, .remove 2, .remove 1] (boot 0) =
      .state 0 [(0, 0), (0, 0), (0, 0), (0, 0), (0, 0)] 1 := by
  decide!

set_option maxRecDepth 100000 in
/-- C7 (defect): `device_exit` for a device that is not in the table, never registered or
already removed, ends in a dereference of the `NULL` adapter instead of returning. -/
theorem C7_exit_of_missing_adapter_faults :
    run_steps [.remove 1] (boot 0) = .fault .null_deref ∧
    run_steps [.probe 1, .remove 1, .remove 1] (boot 0) = .fault .null_deref ∧
    run_steps [.probe 1, .remove 2] (boot 0) = .fault .null_deref := by
  decide!

end Aio16
